import Mathlib

/-!
Verification model of the Healthcare-Plan-Project ETL subsystem:
the MongoDB → PostgreSQL dimensional loader (`etl_runner.js`) and the
change-data-capture trigger coordinator (the CDC watcher script).
Warehouse tables are modelled as in-memory lists of rows, SQL statements
as pure state transformers, and the Node.js event loop of the watcher as
a step function over an explicit event trace.
-/

namespace HPP

/-- A calendar date (UTC), the value a JavaScript `Date` denotes at day
granularity.  The loader only ever uses year/month/day. -/
structure CalDate where
  year : Nat
  month : Nat
  day : Nat
deriving DecidableEq

/-- JavaScript `x || dflt` for an optional string (`undefined`, `null` and
`""` are falsy). -/
def jsOrStr : Option String → String → String
  | none, dflt => dflt
  | some s, dflt => if s = "" then dflt else s

/-- JavaScript `x || dflt` for an optional number (`undefined`, `null` and
`0` are falsy). -/
def jsOrInt : Option Int → Int → Int
  | none, dflt => dflt
  | some n, dflt => if n = 0 then dflt else n

/-- Collapse every run of whitespace into a single underscore; the Boolean
records whether the previous character was whitespace.  Embeds the
JavaScript `replace` of whitespace runs by underscore used for plan-type
and service codes. -/
def collapseWsAux : Bool → List Char → List Char
  | _, [] => []
  | prevWs, c :: rest =>
    if c.isWhitespace then
      if prevWs then collapseWsAux true rest
      else '_' :: collapseWsAux true rest
    else c :: collapseWsAux false rest

/-- `s.toLowerCase()` for the ASCII strings this pipeline normalizes,
mapped over the character list. -/
def toLowerStr (s : String) : String := ⟨s.data.map Char.toLower⟩

/-- `s.toLowerCase().replace(whitespace-runs, "_")` from `etl_runner.js`
(plan-type codes, line 116, and fallback service ids, line 210). -/
def normCode (s : String) : String :=
  ⟨collapseWsAux false (toLowerStr s).data⟩

/-- Leap year test (Gregorian). -/
def isLeap (y : Nat) : Bool :=
  y % 4 == 0 && (y % 100 != 0 || y % 400 == 0)

/-- Days since the civil epoch 1970-01-01 (Howard Hinnant's civil-from-days
algorithm); used to embed `Date.prototype.getDay` and the watcher's week
arithmetic at UTC. -/
def toEpochDays (dt : CalDate) : Int :=
  let y : Int := if dt.month ≤ 2 then (dt.year : Int) - 1 else (dt.year : Int)
  let m : Int := dt.month
  let d : Int := dt.day
  let era : Int := (if y ≥ 0 then y else y - 399).ediv 400
  let yoe : Int := y - era * 400
  let mp : Int := (m + 9).emod 12
  let doy : Int := (153 * mp + 2).ediv 5 + d - 1
  let doe : Int := yoe * 365 + yoe.ediv 4 - yoe.ediv 100 + doy
  era * 146097 + doe - 719468

/-- Inverse of `toEpochDays` (civil-from-days). -/
def ofEpochDays (z0 : Int) : CalDate :=
  let z : Int := z0 + 719468
  let era : Int := (if z ≥ 0 then z else z - 146096).ediv 146097
  let doe : Int := z - era * 146097
  let yoe : Int := (doe - doe.ediv 1460 + doe.ediv 36524 - doe.ediv 146096).ediv 365
  let y : Int := yoe + era * 400
  let doy : Int := doe - (365 * yoe + yoe.ediv 4 - yoe.ediv 100)
  let mp : Int := (5 * doy + 2).ediv 153
  let d : Int := doy - (153 * mp + 2).ediv 5 + 1
  let m : Int := mp + (if mp < 10 then 3 else -9)
  let y' : Int := if m ≤ 2 then y + 1 else y
  ⟨y'.toNat, m.toNat, d.toNat⟩

/-- `Date.prototype.getDay` at UTC: 0 = Sunday … 6 = Saturday
(1970-01-01 was a Thursday). -/
def dayOfWeek (dt : CalDate) : Nat :=
  ((toEpochDays dt + 4).emod 7).toNat

/-- `toLocaleString("en-US", month long)` (etl_runner.js line 66). -/
def monthName : Nat → String
  | 1 => "January" | 2 => "February" | 3 => "March" | 4 => "April"
  | 5 => "May" | 6 => "June" | 7 => "July" | 8 => "August"
  | 9 => "September" | 10 => "October" | 11 => "November" | 12 => "December"
  | _ => "Invalid"

/-- `toLocaleString("en-US", weekday long)` (etl_runner.js line 69),
indexed by `getDay`. -/
def dayName : Nat → String
  | 0 => "Sunday" | 1 => "Monday" | 2 => "Tuesday" | 3 => "Wednesday"
  | 4 => "Thursday" | 5 => "Friday" | 6 => "Saturday"
  | _ => "Invalid"

/-- `getWeekNumber` (etl_runner.js lines 88-94): shift to the Thursday of
the ISO week, then count weeks from that year's January 1st. -/
def getWeekNumber (dt : CalDate) : Int :=
  let dow := dayOfWeek dt
  let shifted := ofEpochDays (toEpochDays dt + 4 - (if dow = 0 then 7 else (dow : Int)))
  let yearStart := toEpochDays ⟨shifted.year, 1, 1⟩
  let diff := toEpochDays shifted - yearStart
  (diff + 1 + 6).ediv 7

/-- `planserviceCostShares` / `planCostShares` subdocument: the measures the
loader reads from a plan or linked-service document. -/
structure CostShares where
  deductible : Option Int
  copay : Option Int
deriving DecidableEq

/-- The populated `linkedService` subdocument of a linked-plan-service
entry. -/
structure InnerService where
  objectId : Option String
  planserviceCostShares : Option CostShares
deriving DecidableEq

/-- One entry of a plan's `linkedPlanServices` array. -/
structure LinkedService where
  name : Option String
  objectId : Option String
  linkedService : Option InnerService
deriving DecidableEq

/-- The `linkedPlanServices` field as the loader sees it: absent
(`undefined`/`null`), present but not an array, or an array of entries
(etl_runner.js lines 202-206 branch on exactly these three shapes). -/
inductive ServicesField where
  | missing
  | notList
  | list (entries : List LinkedService)
deriving DecidableEq

/-- A source plan document as extracted from MongoDB.  `_id` is the Mongo
object id (always present); `creationDate` is the parsed calendar date, or
`none` when the field is absent or unparseable-falsy. -/
structure PlanDoc where
  _id : String
  objectId : Option String
  _org : Option String
  planType : Option String
  creationDate : Option CalDate
  planCostShares : Option CostShares
  linkedPlanServices : ServicesField
deriving DecidableEq

/-! ## Warehouse model

Each PostgreSQL table of `warehouse_schema.sql` that the loader writes is a
list of rows; `SERIAL` surrogate keys are per-table counters starting at 1. -/

/-- Row of `dim_organization` (natural key `org_id`). -/
structure OrgRow where
  org_key : Nat
  org_id : String
  org_name : String
deriving DecidableEq

/-- Row of `dim_plan_type` (natural key `plan_type_code`). -/
structure PlanTypeRow where
  plan_type_key : Nat
  plan_type_code : String
  plan_type_name : String
deriving DecidableEq

/-- Row of `dim_date` (explicit `date_key`, unique `date_value`). -/
structure DateRow where
  date_key : Nat
  date_value : CalDate
  year : Nat
  quarter : Nat
  month : Nat
  month_name : String
  day : Nat
  day_of_week : Nat
  day_name : String
  week_of_year : Int
  is_weekend : Bool
deriving DecidableEq

/-- Row of `dim_plan` (natural key `plan_id` in the load path). -/
structure PlanRow where
  plan_key : Nat
  plan_id : String
  plan_type_key : Nat
  org_key : Nat
  is_current : Bool
  effective_date : CalDate
  expiration_date : Option CalDate
deriving DecidableEq

/-- Row of `dim_service` (natural key `service_id`). -/
structure ServiceRow where
  service_key : Nat
  service_id : String
  service_name : String
  service_category : String
deriving DecidableEq

/-- Row of `fact_plan_costs`. -/
structure PlanCostFact where
  plan_key : Nat
  plan_type_key : Nat
  org_key : Nat
  creation_date_key : Nat
  deductible : Int
  copay : Int
  total_cost_shares : Int
deriving DecidableEq

/-- Row of `fact_service_costs`. -/
structure ServiceCostFact where
  service_key : Nat
  plan_key : Nat
  org_key : Nat
  date_key : Nat
  deductible : Int
  copay : Int
  total_service_cost : Int
deriving DecidableEq

/-- Row of `etl_audit_log` (timestamps as milliseconds since the epoch,
the value a JavaScript `Date` wraps). -/
structure AuditRow where
  job_name : String
  job_type : String
  start_time : Int
  end_time : Int
  status : String
  records_processed : Nat
  records_inserted : Nat
  records_updated : Nat
  records_failed : Nat
  error_message : Option String
deriving DecidableEq

/-- The warehouse: the tables `etl_runner.js` writes, plus the next value
of each `SERIAL` surrogate-key sequence. -/
structure Warehouse where
  dim_organization : List OrgRow
  next_org_key : Nat
  dim_plan_type : List PlanTypeRow
  next_plan_type_key : Nat
  dim_date : List DateRow
  dim_plan : List PlanRow
  next_plan_key : Nat
  dim_service : List ServiceRow
  next_service_key : Nat
  fact_plan_costs : List PlanCostFact
  fact_service_costs : List ServiceCostFact
  etl_audit_log : List AuditRow
deriving DecidableEq

/-- A freshly created warehouse: empty tables, sequences at 1. -/
def emptyWarehouse : Warehouse :=
  ⟨[], 1, [], 1, [], [], 1, [], 1, [], [], []⟩

/-! ## Dimension and fact operations (`etl_runner.js`) -/

/-- The `date_key` integer: year, month, day concatenated decimally
(YYYYMMDD), the value of
`parseInt(date.toISOString().replace(...).substring(0, 8))`
at etl_runner.js line 50 for dates with a four-digit-or-less year. -/
def ymdKey (d : CalDate) : Nat :=
  d.year * 10000 + d.month * 100 + d.day

/-- The `dim_date` row inserted by `getOrCreateDateKey`
(etl_runner.js lines 52-72); quarter is `Math.floor(getMonth() / 3) + 1`
with a 0-based JS month. -/
def mkDateRow (key : Nat) (d : CalDate) : DateRow :=
  { date_key := key
    date_value := d
    year := d.year
    quarter := (d.month - 1) / 3 + 1
    month := d.month
    month_name := monthName d.month
    day := d.day
    day_of_week := dayOfWeek d
    day_name := dayName (dayOfWeek d)
    week_of_year := getWeekNumber d
    is_weekend := dayOfWeek d == 0 || dayOfWeek d == 6 }

/-- `getOrCreateDateKey` (etl_runner.js lines 35-83): select by
`date_value`; if absent insert the YYYYMMDD-keyed row and return its key.
The `ON CONFLICT … DO NOTHING` re-select fallback of lines 74-82 is only
reachable under a concurrent insert and so has no arm in this sequential
embedding. -/
def getOrCreateDateKey (w : Warehouse) (d : CalDate) : Nat × Warehouse :=
  match w.dim_date.find? (fun r => decide (r.date_value = d)) with
  | some r => (r.date_key, w)
  | none =>
    let dateKey := ymdKey d
    (dateKey, { w with dim_date := w.dim_date ++ [mkDateRow dateKey d] })

/-- The organization upsert of `loadDimensions` (etl_runner.js lines
106-112): `INSERT … ON CONFLICT (org_id) DO UPDATE SET org_name = …
RETURNING org_key`. -/
def upsertOrganization (w : Warehouse) (orgId orgName : String) : Nat × Warehouse :=
  match w.dim_organization.find? (fun r => decide (r.org_id = orgId)) with
  | some r =>
    (r.org_key,
     { w with dim_organization :=
        w.dim_organization.map (fun x =>
          if x.org_id = orgId then { x with org_name := orgName } else x) })
  | none =>
    (w.next_org_key,
     { w with
        dim_organization := w.dim_organization ++ [⟨w.next_org_key, orgId, orgName⟩]
        next_org_key := w.next_org_key + 1 })

/-- The plan-type resolution of `loadDimensions` (etl_runner.js lines
118-133): select by `plan_type_code`, insert when absent. -/
def getOrCreatePlanType (w : Warehouse) (code name : String) : Nat × Warehouse :=
  match w.dim_plan_type.find? (fun r => decide (r.plan_type_code = code)) with
  | some r => (r.plan_type_key, w)
  | none =>
    (w.next_plan_type_key,
     { w with
        dim_plan_type := w.dim_plan_type ++ [⟨w.next_plan_type_key, code, name⟩]
        next_plan_type_key := w.next_plan_type_key + 1 })

/-- The plan resolution of `loadDimensions` (etl_runner.js lines 143-164):
select by `plan_id`, insert with `is_current = true` and a null
expiration date when absent. -/
def getOrCreatePlan (w : Warehouse) (planId : String) (planTypeKey orgKey : Nat)
    (effective : CalDate) : Nat × Warehouse :=
  match w.dim_plan.find? (fun r => decide (r.plan_id = planId)) with
  | some r => (r.plan_key, w)
  | none =>
    (w.next_plan_key,
     { w with
        dim_plan := w.dim_plan ++
          [⟨w.next_plan_key, planId, planTypeKey, orgKey, true, effective, none⟩]
        next_plan_key := w.next_plan_key + 1 })

/-- The service resolution of `loadServiceFacts` (etl_runner.js lines
213-229): select by `service_id`, insert with category
"Healthcare Service" when absent. -/
def getOrCreateService (w : Warehouse) (serviceId serviceName : String) : Nat × Warehouse :=
  match w.dim_service.find? (fun r => decide (r.service_id = serviceId)) with
  | some r => (r.service_key, w)
  | none =>
    (w.next_service_key,
     { w with
        dim_service := w.dim_service ++
          [⟨w.next_service_key, serviceId, serviceName, "Healthcare Service"⟩]
        next_service_key := w.next_service_key + 1 })

/-- The four surrogate keys `loadDimensions` returns. -/
structure Keys where
  org_key : Nat
  plan_type_key : Nat
  creation_date_key : Nat
  plan_key : Nat
deriving DecidableEq

/-- `loadDimensions` (etl_runner.js lines 99-167).  `today` is the
calendar date of `new Date()`, the default when `creationDate` is
absent. -/
def loadDimensions (w : Warehouse) (p : PlanDoc) (today : CalDate) : Keys × Warehouse :=
  let orgId := jsOrStr p._org "unknown"
  let orgName := jsOrStr p._org "Unknown Organization"
  let org := upsertOrganization w orgId orgName
  let planType := jsOrStr p.planType "unknown"
  let planTypeCode := normCode planType
  let pt := getOrCreatePlanType org.2 planTypeCode planType
  let creationDate := p.creationDate.getD today
  let dk := getOrCreateDateKey pt.2 creationDate
  let planId := jsOrStr p.objectId p._id
  let pl := getOrCreatePlan dk.2 planId pt.1 org.1 creationDate
  (⟨org.1, pt.1, dk.1, pl.1⟩, pl.2)

/-- `plan.planCostShares?.deductible || 0` (etl_runner.js line 173). -/
def planDeductible (p : PlanDoc) : Int :=
  jsOrInt (p.planCostShares.bind CostShares.deductible) 0

/-- `plan.planCostShares?.copay || 0` (etl_runner.js line 174). -/
def planCopay (p : PlanDoc) : Int :=
  jsOrInt (p.planCostShares.bind CostShares.copay) 0

/-- `loadPlanFacts` (etl_runner.js lines 172-196): insert exactly one
`fact_plan_costs` row; `total_cost_shares` is computed as
deductible + copay. -/
def loadPlanFacts (w : Warehouse) (p : PlanDoc) (keys : Keys) : Warehouse :=
  let deductible := planDeductible p
  let copay := planCopay p
  let totalCostShares := deductible + copay
  { w with fact_plan_costs := w.fact_plan_costs ++
      [⟨keys.plan_key, keys.plan_type_key, keys.org_key, keys.creation_date_key,
        deductible, copay, totalCostShares⟩] }

/-- `serviceData.name || "Unknown Service"` (etl_runner.js line 209). -/
def svcName (e : LinkedService) : String :=
  jsOrStr e.name "Unknown Service"

/-- `serviceData.objectId || name.toLowerCase().replace(...)`
(etl_runner.js line 210). -/
def svcId (e : LinkedService) : String :=
  jsOrStr e.objectId (normCode (svcName e))

/-- `serviceData.linkedService?.planserviceCostShares || {}`
(etl_runner.js line 232). -/
def svcCostShares (e : LinkedService) : CostShares :=
  match e.linkedService with
  | none => ⟨none, none⟩
  | some ls => ls.planserviceCostShares.getD ⟨none, none⟩

/-- `costShares.deductible || 0` (etl_runner.js line 233). -/
def svcDeductible (e : LinkedService) : Int :=
  jsOrInt (svcCostShares e).deductible 0

/-- `costShares.copay || 0` (etl_runner.js line 234). -/
def svcCopay (e : LinkedService) : Int :=
  jsOrInt (svcCostShares e).copay 0

/-- The `for (const serviceData of linkedServices)` loop of
`loadServiceFacts` (etl_runner.js lines 208-253); the returned number is
how many times `stats.servicesLoaded++` ran. -/
def loadServiceEntries (keys : Keys) : Warehouse → List LinkedService → Warehouse × Nat
  | w, [] => (w, 0)
  | w, e :: rest =>
    let svc := getOrCreateService w (svcId e) (svcName e)
    let sd := svcDeductible e
    let sc := svcCopay e
    let w2 := { svc.2 with fact_service_costs := svc.2.fact_service_costs ++
        [⟨svc.1, keys.plan_key, keys.org_key, keys.creation_date_key, sd, sc, sd + sc⟩] }
    let tail := loadServiceEntries keys w2 rest
    (tail.1, tail.2 + 1)

/-- `loadServiceFacts` (etl_runner.js lines 201-254): an absent
`linkedPlanServices` becomes `[]` via `|| []`; a present non-array value
is rejected by the `Array.isArray` guard; otherwise each entry is
loaded. -/
def loadServiceFacts (w : Warehouse) (p : PlanDoc) (keys : Keys) : Warehouse × Nat :=
  match p.linkedPlanServices with
  | .missing => loadServiceEntries keys w []
  | .notList => (w, 0)
  | .list entries => loadServiceEntries keys w entries

/-- One document's transaction body (etl_runner.js lines 325-332):
dimensions, then the plan fact, then the service facts. -/
def loadDocument (w : Warehouse) (p : PlanDoc) (today : CalDate) : Warehouse × Nat :=
  let dims := loadDimensions w p today
  let w2 := loadPlanFacts dims.2 p dims.1
  loadServiceFacts w2 p dims.1

/-! ## The pipeline run (`runETL` / `logETLRun` of `etl_runner.js`) -/

/-- The module-level `stats` object of `etl_runner.js` (lines 23-30);
`startTime`/`endTime` start as `null`, hence `Option`. -/
structure Stats where
  plansExtracted : Nat
  plansLoaded : Nat
  servicesLoaded : Nat
  errors : Nat
  startTime : Option Int
  endTime : Option Int
deriving DecidableEq

/-- The initial `stats` literal. -/
def initialStats : Stats := ⟨0, 0, 0, 0, none, none⟩

/-- Numeric value of `new Date(x)` for a possibly-`null` millisecond
timestamp: JavaScript coerces `null` to `0` (the 1970 epoch). -/
def jsDateNum : Option Int → Int
  | none => 0
  | some t => t

/-- The per-document loop of `runETL` (etl_runner.js lines 321-346).
`dbFail i` says whether document `i`'s transaction throws somewhere in its
load sequence (a storage error or malformed data); the `catch` then rolls
the transaction back — the warehouse keeps its pre-document state — and
increments `stats.errors`, while success commits and increments
`stats.plansLoaded`. -/
def processPlans (dbFail : Nat → Bool) (today : CalDate) :
    Nat → Warehouse → Stats → List PlanDoc → Warehouse × Stats
  | _, w, st, [] => (w, st)
  | i, w, st, p :: rest =>
    if dbFail i then
      processPlans dbFail today (i + 1) w { st with errors := st.errors + 1 } rest
    else
      let ld := loadDocument w p today
      processPlans dbFail today (i + 1) ld.1
        { st with
            plansLoaded := st.plansLoaded + 1
            servicesLoaded := st.servicesLoaded + ld.2 } rest

/-- `logETLRun` (etl_runner.js lines 259-281): one `etl_audit_log` row per
run, status `SUCCESS` iff zero failures.  The row's timestamps are
`new Date(stats.startTime)` and `new Date(stats.endTime)` as they stand
when this is called. -/
def logETLRun (w : Warehouse) (st : Stats) : Warehouse :=
  let status := if st.errors = 0 then "SUCCESS" else "PARTIAL_SUCCESS"
  let errorMsg :=
    if st.errors > 0 then some (toString st.errors ++ " plans failed to load") else none
  { w with etl_audit_log := w.etl_audit_log ++
      [⟨"MongoDB to PostgreSQL ETL", "FULL_LOAD",
        jsDateNum st.startTime, jsDateNum st.endTime, status,
        st.plansExtracted, st.plansLoaded, 0, st.errors, errorMsg⟩] }

/-- Everything observable about one invocation of the `etl_runner.js`
script: the value `runETL()` resolves to (`none` = `undefined`,
`some false` = the `return false` of the catch block), the final stores,
and the cleanup/exit behaviour. -/
structure RunOutcome where
  result : Option Bool
  warehouse : Warehouse
  stats : Stats
  clientAcquired : Bool
  clientReleased : Bool
  poolEnded : Bool
  mongoClosed : Bool
  exitCode : Nat
deriving DecidableEq

/-- `runETL` (etl_runner.js lines 286-391).  `mongoOk`/`pgOk` say whether
the two connection attempts succeed; `t0` is `Date.now()` at line 293 and
`t1` at line 352.  Per the source order, `logETLRun` runs at line 350
while `stats.endTime` is still `null`; `stats.endTime = Date.now()`
follows at line 352.  The `finally` block always ends the pool and closes
Mongo, and releases the client exactly when one was acquired.  The script
never calls `process.exit`, so the process exit status is 0 on every
path (the catch comments "Don't exit - let CDC watcher continue
running"). -/
def runETL (mongoOk pgOk : Bool) (dbFail : Nat → Bool) (today : CalDate)
    (t0 t1 : Int) (plans : List PlanDoc) (w : Warehouse) : RunOutcome :=
  let st0 := { initialStats with startTime := some t0 }
  if mongoOk = false then
    ⟨some false, w, st0, false, false, true, true, 0⟩
  else if pgOk = false then
    ⟨some false, w, st0, false, false, true, true, 0⟩
  else
    let st1 := { st0 with plansExtracted := plans.length }
    let run := processPlans dbFail today 0 w st1 plans
    let w2 := logETLRun run.1 run.2
    let st3 := { run.2 with endTime := some t1 }
    ⟨none, w2, st3, true, true, true, true, 0⟩

/-! ## The CDC watcher (trigger coordinator) -/

namespace Watcher

/-- The watcher's two module-level mutable variables
(cdc_watcher lines 41-42): `etlRunning` and the queue of `Date.now()`
timestamps pushed for notifications that arrive mid-run. -/
structure CoordState where
  etlRunning : Bool
  etlQueue : List Nat
deriving DecidableEq

/-- The initial watcher state: no run in flight, empty queue. -/
def initState : CoordState := ⟨false, []⟩

/-- Events the Node event loop delivers to the watcher: a change-stream
notification (its handler calls `runETL`), the firing of the 2000 ms
`setTimeout(runETL, 2000)` (which also calls `runETL`), and the `close`
of the spawned ETL process. -/
inductive CoordEvent where
  | change (t : Nat)
  | timerFire (t : Nat)
  | closeRun
deriving DecidableEq

/-- The externally observable actions of a step: spawning the ETL child
process, or scheduling the debounced follow-up with its delay in
milliseconds. -/
inductive CoordAction where
  | spawnETL
  | scheduleFollowUp (delayMs : Nat)
deriving DecidableEq

/-- The watcher's `runETL` entry (cdc_watcher lines 47-64): when a run is
in flight, push the timestamp and return without spawning; otherwise mark
running and spawn the pipeline process. -/
def runETLTrigger (t : Nat) (s : CoordState) : CoordState × List CoordAction :=
  if s.etlRunning then
    ({ s with etlQueue := s.etlQueue ++ [t] }, [])
  else
    ({ s with etlRunning := true }, [CoordAction.spawnETL])

/-- The `close` handler of the spawned process (cdc_watcher lines 66-83):
clear the running flag; if any notifications were queued, empty the queue
and schedule exactly one `setTimeout(runETL, 2000)`. -/
def onProcessClose (s : CoordState) : CoordState × List CoordAction :=
  let s1 := { s with etlRunning := false }
  if s1.etlQueue.length > 0 then
    ({ s1 with etlQueue := [] }, [CoordAction.scheduleFollowUp 2000])
  else
    (s1, [])

/-- One step of the watcher's event loop. -/
def coordStep (s : CoordState) : CoordEvent → CoordState × List CoordAction
  | .change t => runETLTrigger t s
  | .timerFire t => runETLTrigger t s
  | .closeRun => onProcessClose s

/-- Run the watcher over a whole event trace, collecting all actions. -/
def coordExec (s : CoordState) : List CoordEvent → CoordState × List CoordAction
  | [] => (s, [])
  | e :: rest =>
    let step := coordStep s e
    let tail := coordExec step.1 rest
    (tail.1, step.2 ++ tail.2)

/-- Recognize a spawn action. -/
def isSpawn : CoordAction → Bool
  | .spawnETL => true
  | _ => false

/-- Recognize a follow-up scheduling action. -/
def isFollowUp : CoordAction → Bool
  | .scheduleFollowUp _ => true
  | _ => false

/-- Recognize a process-close event. -/
def isClose : CoordEvent → Bool
  | .closeRun => true
  | _ => false

/-- Number of pipeline runs started by a list of actions. -/
def countSpawns (acts : List CoordAction) : Nat := (acts.filter isSpawn).length

/-- Number of debounced follow-ups scheduled by a list of actions. -/
def countFollowUps (acts : List CoordAction) : Nat := (acts.filter isFollowUp).length

/-- Number of run completions in an event trace. -/
def countCloses (evs : List CoordEvent) : Nat := (evs.filter isClose).length

/-- A trace is valid when every `closeRun` is the completion of a run that
is actually in flight — which holds whenever each spawned process emits
exactly one `close` (the non-pathological behaviour of `child_process`;
a failed spawn's `error` handler is the one source path outside this
condition). -/
def validFrom : CoordState → List CoordEvent → Bool
  | _, [] => true
  | s, e :: rest =>
    (if e = CoordEvent.closeRun then s.etlRunning else true) && validFrom (coordStep s e).1 rest

/-- The tail of `setupChangeStream` (cdc_watcher lines 153-155): with the
change stream established and the state still initial, the watcher calls
`runETL()` once before any notification has arrived. -/
def startupRun : CoordState × List CoordAction := runETLTrigger 0 initState

end Watcher

/-! ## Natural-key presence predicates -/

/-- `dim_organization` has a row with this natural key. -/
def orgHas (w : Warehouse) (k : String) : Prop := ∃ r ∈ w.dim_organization, r.org_id = k

/-- `dim_plan_type` has a row with this natural key. -/
def ptHas (w : Warehouse) (k : String) : Prop := ∃ r ∈ w.dim_plan_type, r.plan_type_code = k

/-- `dim_date` has a row for this calendar date. -/
def dateHas (w : Warehouse) (d : CalDate) : Prop := ∃ r ∈ w.dim_date, r.date_value = d

/-- `dim_plan` has a row with this natural key. -/
def planHas (w : Warehouse) (k : String) : Prop := ∃ r ∈ w.dim_plan, r.plan_id = k

/-- `dim_service` has a row with this natural key. -/
def svcHas (w : Warehouse) (k : String) : Prop := ∃ r ∈ w.dim_service, r.service_id = k

/-- The linked-service entries a document contributes: the array when the
field is an array, nothing otherwise. -/
def entriesOf (p : PlanDoc) : List LinkedService :=
  match p.linkedPlanServices with
  | .list es => es
  | _ => []

/-- Every `dim_date` row keys its calendar date as YYYYMMDD.  This holds
for every row this pipeline creates and for the 2017-2030 rows seeded by
`populate_date_dimension` in the warehouse schema, which uses
`TO_CHAR(date, 'YYYYMMDD')::INTEGER`. -/
def DateDimConsistent (w : Warehouse) : Prop :=
  ∀ r ∈ w.dim_date, r.date_key = ymdKey r.date_value

/-- How many of the documents at indices `i, i+1, …, i+n-1` fail. -/
def failCount (dbFail : Nat → Bool) : Nat → Nat → Nat
  | _, 0 => 0
  | i, n + 1 => (if dbFail i then 1 else 0) + failCount dbFail (i + 1) n

/-- A well-formed sample document (the spec's scenario document `p1`). -/
def sampleDoc : PlanDoc :=
  ⟨"6507f1f77bcf86cd79943901", some "p1", some "acme", some "inNetwork",
   some ⟨2024, 1, 15⟩, some ⟨some 2000, some 23⟩, ServicesField.list []⟩

/-- A document missing both its organization and its plan-type field. -/
def unknownDoc : PlanDoc :=
  ⟨"6507f1f77bcf86cd79943902", some "p9", none, none,
   some ⟨2024, 1, 15⟩, some ⟨some 2000, some 23⟩, ServicesField.list []⟩

/-- A linked-service entry whose cost data is entirely missing. -/
def noCostEntry : LinkedService := ⟨some "Vision", some "svc1", none⟩

/-- A document with one linked service that has no cost data. -/
def svcDoc : PlanDoc :=
  ⟨"6507f1f77bcf86cd79943903", some "p2", some "acme", some "ppo",
   some ⟨2024, 2, 1⟩, none, ServicesField.list [noCostEntry]⟩

/-! ## Lemmas about natural-key lookups -/

theorem mem_key_of_find?_eq_some {α β : Type} [DecidableEq β] {keyf : α → β} {k : β}
    {l : List α} {r : α} (h : l.find? (fun x => decide (keyf x = k)) = some r) :
    r ∈ l ∧ keyf r = k :=
  ⟨List.mem_of_find?_eq_some h, by have h2 := List.find?_some h; simpa using h2⟩

theorem find?_key_isSome_of_exists {α β : Type} [DecidableEq β] (keyf : α → β) {k : β}
    {l : List α} (h : ∃ r ∈ l, keyf r = k) :
    (l.find? (fun x => decide (keyf x = k))).isSome := by
  rw [List.find?_isSome]; simpa using h

/-! ## Per-operation lemmas: organization upsert -/

theorem upsertOrganization_found {w : Warehouse} {idv namev : String} {r : OrgRow}
    (h : w.dim_organization.find? (fun x => decide (x.org_id = idv)) = some r) :
    upsertOrganization w idv namev =
      (r.org_key,
       { w with dim_organization :=
          w.dim_organization.map (fun x =>
            if x.org_id = idv then { x with org_name := namev } else x) }) := by
  unfold upsertOrganization; rw [h]

theorem upsertOrganization_none {w : Warehouse} {idv namev : String}
    (h : w.dim_organization.find? (fun x => decide (x.org_id = idv)) = none) :
    upsertOrganization w idv namev =
      (w.next_org_key,
       { w with
          dim_organization := w.dim_organization ++ [⟨w.next_org_key, idv, namev⟩]
          next_org_key := w.next_org_key + 1 }) := by
  unfold upsertOrganization; rw [h]

/-- The organization upsert touches only `dim_organization` and its
sequence. -/
theorem upsertOrganization_frame (w : Warehouse) (idv namev : String) :
    (upsertOrganization w idv namev).2.dim_plan_type = w.dim_plan_type ∧
    (upsertOrganization w idv namev).2.next_plan_type_key = w.next_plan_type_key ∧
    (upsertOrganization w idv namev).2.dim_date = w.dim_date ∧
    (upsertOrganization w idv namev).2.dim_plan = w.dim_plan ∧
    (upsertOrganization w idv namev).2.next_plan_key = w.next_plan_key ∧
    (upsertOrganization w idv namev).2.dim_service = w.dim_service ∧
    (upsertOrganization w idv namev).2.next_service_key = w.next_service_key ∧
    (upsertOrganization w idv namev).2.fact_plan_costs = w.fact_plan_costs ∧
    (upsertOrganization w idv namev).2.fact_service_costs = w.fact_service_costs ∧
    (upsertOrganization w idv namev).2.etl_audit_log = w.etl_audit_log := by
  rcases h : w.dim_organization.find? (fun x => decide (x.org_id = idv)) with _ | r
  · rw [upsertOrganization_none h]; exact ⟨rfl, rfl, rfl, rfl, rfl, rfl, rfl, rfl, rfl, rfl⟩
  · rw [upsertOrganization_found h]; exact ⟨rfl, rfl, rfl, rfl, rfl, rfl, rfl, rfl, rfl, rfl⟩

/-- When the natural key is already present, the upsert's `DO UPDATE`
branch keeps the row count. -/
theorem upsertOrganization_length_of_has {w : Warehouse} {idv : String} (namev : String)
    (h : orgHas w idv) :
    (upsertOrganization w idv namev).2.dim_organization.length =
      w.dim_organization.length := by
  have hs := find?_key_isSome_of_exists OrgRow.org_id h
  rcases ho : w.dim_organization.find? (fun x => decide (x.org_id = idv)) with _ | r
  · rw [ho] at hs; simp at hs
  · rw [upsertOrganization_found ho]; simp

/-- After the upsert, a row carrying the returned key holds the given
natural key and display name. -/
theorem upsertOrganization_key_row (w : Warehouse) (idv namev : String) :
    ∃ r ∈ (upsertOrganization w idv namev).2.dim_organization,
      r.org_key = (upsertOrganization w idv namev).1 ∧
      r.org_id = idv ∧ r.org_name = namev := by
  rcases ho : w.dim_organization.find? (fun x => decide (x.org_id = idv)) with _ | r
  · rw [upsertOrganization_none ho]
    exact ⟨⟨w.next_org_key, idv, namev⟩, by simp, rfl, rfl, rfl⟩
  · obtain ⟨hmem, hkey⟩ := mem_key_of_find?_eq_some ho
    rw [upsertOrganization_found ho]
    refine ⟨{ r with org_name := namev }, ?_, rfl, hkey, rfl⟩
    simp only [List.mem_map]
    exact ⟨r, hmem, by rw [if_pos hkey]⟩

/-- After the upsert the natural key is present. -/
theorem upsertOrganization_has (w : Warehouse) (idv namev : String) :
    orgHas (upsertOrganization w idv namev).2 idv := by
  obtain ⟨r, hmem, _, hid, _⟩ := upsertOrganization_key_row w idv namev
  exact ⟨r, hmem, hid⟩

/-! ## Per-operation lemmas: plan-type resolution -/

theorem getOrCreatePlanType_found {w : Warehouse} {code name : String} {r : PlanTypeRow}
    (h : w.dim_plan_type.find? (fun x => decide (x.plan_type_code = code)) = some r) :
    getOrCreatePlanType w code name = (r.plan_type_key, w) := by
  unfold getOrCreatePlanType; rw [h]

theorem getOrCreatePlanType_none {w : Warehouse} {code name : String}
    (h : w.dim_plan_type.find? (fun x => decide (x.plan_type_code = code)) = none) :
    getOrCreatePlanType w code name =
      (w.next_plan_type_key,
       { w with
          dim_plan_type := w.dim_plan_type ++ [⟨w.next_plan_type_key, code, name⟩]
          next_plan_type_key := w.next_plan_type_key + 1 }) := by
  unfold getOrCreatePlanType; rw [h]

/-- Plan-type resolution touches only `dim_plan_type` and its sequence. -/
theorem getOrCreatePlanType_frame (w : Warehouse) (code name : String) :
    (getOrCreatePlanType w code name).2.dim_organization = w.dim_organization ∧
    (getOrCreatePlanType w code name).2.next_org_key = w.next_org_key ∧
    (getOrCreatePlanType w code name).2.dim_date = w.dim_date ∧
    (getOrCreatePlanType w code name).2.dim_plan = w.dim_plan ∧
    (getOrCreatePlanType w code name).2.next_plan_key = w.next_plan_key ∧
    (getOrCreatePlanType w code name).2.dim_service = w.dim_service ∧
    (getOrCreatePlanType w code name).2.next_service_key = w.next_service_key ∧
    (getOrCreatePlanType w code name).2.fact_plan_costs = w.fact_plan_costs ∧
    (getOrCreatePlanType w code name).2.fact_service_costs = w.fact_service_costs ∧
    (getOrCreatePlanType w code name).2.etl_audit_log = w.etl_audit_log := by
  rcases h : w.dim_plan_type.find? (fun x => decide (x.plan_type_code = code)) with _ | r
  · rw [getOrCreatePlanType_none h]; exact ⟨rfl, rfl, rfl, rfl, rfl, rfl, rfl, rfl, rfl, rfl⟩
  · rw [getOrCreatePlanType_found h]; exact ⟨rfl, rfl, rfl, rfl, rfl, rfl, rfl, rfl, rfl, rfl⟩

/-- When the code is already present, resolution is a pure read. -/
theorem getOrCreatePlanType_of_has {w : Warehouse} {code : String} (name : String)
    (h : ptHas w code) : (getOrCreatePlanType w code name).2 = w := by
  have hs := find?_key_isSome_of_exists PlanTypeRow.plan_type_code h
  rcases ho : w.dim_plan_type.find? (fun x => decide (x.plan_type_code = code)) with _ | r
  · rw [ho] at hs; simp at hs
  · rw [getOrCreatePlanType_found ho]

/-- After resolution, a row carrying the returned key holds the code. -/
theorem getOrCreatePlanType_key_row (w : Warehouse) (code name : String) :
    ∃ r ∈ (getOrCreatePlanType w code name).2.dim_plan_type,
      r.plan_type_key = (getOrCreatePlanType w code name).1 ∧
      r.plan_type_code = code := by
  rcases ho : w.dim_plan_type.find? (fun x => decide (x.plan_type_code = code)) with _ | r
  · rw [getOrCreatePlanType_none ho]
    exact ⟨⟨w.next_plan_type_key, code, name⟩, by simp, rfl, rfl⟩
  · obtain ⟨hmem, hkey⟩ := mem_key_of_find?_eq_some ho
    rw [getOrCreatePlanType_found ho]
    exact ⟨r, hmem, rfl, hkey⟩

/-! ## Per-operation lemmas: date-key resolution -/

theorem getOrCreateDateKey_found {w : Warehouse} {d : CalDate} {r : DateRow}
    (h : w.dim_date.find? (fun x => decide (x.date_value = d)) = some r) :
    getOrCreateDateKey w d = (r.date_key, w) := by
  unfold getOrCreateDateKey; rw [h]

theorem getOrCreateDateKey_none {w : Warehouse} {d : CalDate}
    (h : w.dim_date.find? (fun x => decide (x.date_value = d)) = none) :
    getOrCreateDateKey w d =
      (ymdKey d, { w with dim_date := w.dim_date ++ [mkDateRow (ymdKey d) d] }) := by
  unfold getOrCreateDateKey; rw [h]

/-- Date-key resolution touches only `dim_date`. -/
theorem getOrCreateDateKey_frame (w : Warehouse) (d : CalDate) :
    (getOrCreateDateKey w d).2.dim_organization = w.dim_organization ∧
    (getOrCreateDateKey w d).2.next_org_key = w.next_org_key ∧
    (getOrCreateDateKey w d).2.dim_plan_type = w.dim_plan_type ∧
    (getOrCreateDateKey w d).2.next_plan_type_key = w.next_plan_type_key ∧
    (getOrCreateDateKey w d).2.dim_plan = w.dim_plan ∧
    (getOrCreateDateKey w d).2.next_plan_key = w.next_plan_key ∧
    (getOrCreateDateKey w d).2.dim_service = w.dim_service ∧
    (getOrCreateDateKey w d).2.next_service_key = w.next_service_key ∧
    (getOrCreateDateKey w d).2.fact_plan_costs = w.fact_plan_costs ∧
    (getOrCreateDateKey w d).2.fact_service_costs = w.fact_service_costs ∧
    (getOrCreateDateKey w d).2.etl_audit_log = w.etl_audit_log := by
  rcases h : w.dim_date.find? (fun x => decide (x.date_value = d)) with _ | r
  · rw [getOrCreateDateKey_none h]
    exact ⟨rfl, rfl, rfl, rfl, rfl, rfl, rfl, rfl, rfl, rfl, rfl⟩
  · rw [getOrCreateDateKey_found h]
    exact ⟨rfl, rfl, rfl, rfl, rfl, rfl, rfl, rfl, rfl, rfl, rfl⟩

/-- When the date is already present, resolution is a pure read. -/
theorem getOrCreateDateKey_of_has {w : Warehouse} {d : CalDate}
    (h : dateHas w d) : (getOrCreateDateKey w d).2 = w := by
  have hs := find?_key_isSome_of_exists DateRow.date_value h
  rcases ho : w.dim_date.find? (fun x => decide (x.date_value = d)) with _ | r
  · rw [ho] at hs; simp at hs
  · rw [getOrCreateDateKey_found ho]

/-- After resolution the date is present. -/
theorem getOrCreateDateKey_has (w : Warehouse) (d : CalDate) :
    dateHas (getOrCreateDateKey w d).2 d := by
  rcases ho : w.dim_date.find? (fun x => decide (x.date_value = d)) with _ | r
  · rw [getOrCreateDateKey_none ho]
    exact ⟨mkDateRow (ymdKey d) d, by simp, rfl⟩
  · obtain ⟨hmem, hkey⟩ := mem_key_of_find?_eq_some ho
    rw [getOrCreateDateKey_found ho]
    exact ⟨r, hmem, hkey⟩

/-! ## Per-operation lemmas: plan resolution -/

theorem getOrCreatePlan_found {w : Warehouse} {planId : String} {ptk ok eff} {r : PlanRow}
    (h : w.dim_plan.find? (fun x => decide (x.plan_id = planId)) = some r) :
    getOrCreatePlan w planId ptk ok eff = (r.plan_key, w) := by
  unfold getOrCreatePlan; rw [h]

theorem getOrCreatePlan_none {w : Warehouse} {planId : String} {ptk ok eff}
    (h : w.dim_plan.find? (fun x => decide (x.plan_id = planId)) = none) :
    getOrCreatePlan w planId ptk ok eff =
      (w.next_plan_key,
       { w with
          dim_plan := w.dim_plan ++ [⟨w.next_plan_key, planId, ptk, ok, true, eff, none⟩]
          next_plan_key := w.next_plan_key + 1 }) := by
  unfold getOrCreatePlan; rw [h]

/-- Plan resolution touches only `dim_plan` and its sequence. -/
theorem getOrCreatePlan_frame (w : Warehouse) (planId : String) (ptk ok : Nat) (eff : CalDate) :
    (getOrCreatePlan w planId ptk ok eff).2.dim_organization = w.dim_organization ∧
    (getOrCreatePlan w planId ptk ok eff).2.next_org_key = w.next_org_key ∧
    (getOrCreatePlan w planId ptk ok eff).2.dim_plan_type = w.dim_plan_type ∧
    (getOrCreatePlan w planId ptk ok eff).2.next_plan_type_key = w.next_plan_type_key ∧
    (getOrCreatePlan w planId ptk ok eff).2.dim_date = w.dim_date ∧
    (getOrCreatePlan w planId ptk ok eff).2.dim_service = w.dim_service ∧
    (getOrCreatePlan w planId ptk ok eff).2.next_service_key = w.next_service_key ∧
    (getOrCreatePlan w planId ptk ok eff).2.fact_plan_costs = w.fact_plan_costs ∧
    (getOrCreatePlan w planId ptk ok eff).2.fact_service_costs = w.fact_service_costs ∧
    (getOrCreatePlan w planId ptk ok eff).2.etl_audit_log = w.etl_audit_log := by
  rcases h : w.dim_plan.find? (fun x => decide (x.plan_id = planId)) with _ | r
  · rw [getOrCreatePlan_none h]; exact ⟨rfl, rfl, rfl, rfl, rfl, rfl, rfl, rfl, rfl, rfl⟩
  · rw [getOrCreatePlan_found h]; exact ⟨rfl, rfl, rfl, rfl, rfl, rfl, rfl, rfl, rfl, rfl⟩

/-- When the plan id is already present, resolution is a pure read. -/
theorem getOrCreatePlan_of_has {w : Warehouse} {planId : String} {ptk ok eff}
    (h : planHas w planId) : (getOrCreatePlan w planId ptk ok eff).2 = w := by
  have hs := find?_key_isSome_of_exists PlanRow.plan_id h
  rcases ho : w.dim_plan.find? (fun x => decide (x.plan_id = planId)) with _ | r
  · rw [ho] at hs; simp at hs
  · rw [getOrCreatePlan_found ho]

/-- After resolution the plan id is present. -/
theorem getOrCreatePlan_has (w : Warehouse) (planId : String) (ptk ok : Nat) (eff : CalDate) :
    planHas (getOrCreatePlan w planId ptk ok eff).2 planId := by
  rcases ho : w.dim_plan.find? (fun x => decide (x.plan_id = planId)) with _ | r
  · rw [getOrCreatePlan_none ho]
    exact ⟨⟨w.next_plan_key, planId, ptk, ok, true, eff, none⟩, by simp, rfl⟩
  · obtain ⟨hmem, hkey⟩ := mem_key_of_find?_eq_some ho
    rw [getOrCreatePlan_found ho]
    exact ⟨r, hmem, hkey⟩

/-! ## Per-operation lemmas: service resolution -/

theorem getOrCreateService_found {w : Warehouse} {sid sname : String} {r : ServiceRow}
    (h : w.dim_service.find? (fun x => decide (x.service_id = sid)) = some r) :
    getOrCreateService w sid sname = (r.service_key, w) := by
  unfold getOrCreateService; rw [h]

theorem getOrCreateService_none {w : Warehouse} {sid sname : String}
    (h : w.dim_service.find? (fun x => decide (x.service_id = sid)) = none) :
    getOrCreateService w sid sname =
      (w.next_service_key,
       { w with
          dim_service := w.dim_service ++
            [⟨w.next_service_key, sid, sname, "Healthcare Service"⟩]
          next_service_key := w.next_service_key + 1 }) := by
  unfold getOrCreateService; rw [h]

/-- Service resolution touches only `dim_service` and its sequence. -/
theorem getOrCreateService_frame (w : Warehouse) (sid sname : String) :
    (getOrCreateService w sid sname).2.dim_organization = w.dim_organization ∧
    (getOrCreateService w sid sname).2.next_org_key = w.next_org_key ∧
    (getOrCreateService w sid sname).2.dim_plan_type = w.dim_plan_type ∧
    (getOrCreateService w sid sname).2.next_plan_type_key = w.next_plan_type_key ∧
    (getOrCreateService w sid sname).2.dim_date = w.dim_date ∧
    (getOrCreateService w sid sname).2.dim_plan = w.dim_plan ∧
    (getOrCreateService w sid sname).2.next_plan_key = w.next_plan_key ∧
    (getOrCreateService w sid sname).2.fact_plan_costs = w.fact_plan_costs ∧
    (getOrCreateService w sid sname).2.fact_service_costs = w.fact_service_costs ∧
    (getOrCreateService w sid sname).2.etl_audit_log = w.etl_audit_log := by
  rcases h : w.dim_service.find? (fun x => decide (x.service_id = sid)) with _ | r
  · rw [getOrCreateService_none h]; exact ⟨rfl, rfl, rfl, rfl, rfl, rfl, rfl, rfl, rfl, rfl⟩
  · rw [getOrCreateService_found h]; exact ⟨rfl, rfl, rfl, rfl, rfl, rfl, rfl, rfl, rfl, rfl⟩

/-- When the service id is already present, resolution is a pure read. -/
theorem getOrCreateService_of_has {w : Warehouse} {sid : String} (sname : String)
    (h : svcHas w sid) : (getOrCreateService w sid sname).2 = w := by
  have hs := find?_key_isSome_of_exists ServiceRow.service_id h
  rcases ho : w.dim_service.find? (fun x => decide (x.service_id = sid)) with _ | r
  · rw [ho] at hs; simp at hs
  · rw [getOrCreateService_found ho]

/-- After resolution the service id is present. -/
theorem getOrCreateService_has (w : Warehouse) (sid sname : String) :
    svcHas (getOrCreateService w sid sname).2 sid := by
  rcases ho : w.dim_service.find? (fun x => decide (x.service_id = sid)) with _ | r
  · rw [getOrCreateService_none ho]
    exact ⟨⟨w.next_service_key, sid, sname, "Healthcare Service"⟩, by simp, rfl⟩
  · obtain ⟨hmem, hkey⟩ := mem_key_of_find?_eq_some ho
    rw [getOrCreateService_found ho]
    exact ⟨r, hmem, hkey⟩

/-- Service resolution never removes rows: any present id stays present. -/
theorem getOrCreateService_mono {w : Warehouse} {k : String} (sid sname : String)
    (h : svcHas w k) : svcHas (getOrCreateService w sid sname).2 k := by
  obtain ⟨r, hmem, hk⟩ := h
  rcases ho : w.dim_service.find? (fun x => decide (x.service_id = sid)) with _ | r'
  · rw [getOrCreateService_none ho]
    exact ⟨r, by simp [List.mem_append]; exact Or.inl hmem, hk⟩
  · rw [getOrCreateService_found ho]
    exact ⟨r, hmem, hk⟩

/-- Presence of a service id depends only on the `dim_service` table. -/
theorem svcHas_congr {w1 w2 : Warehouse} {k : String}
    (h : w1.dim_service = w2.dim_service) (hk : svcHas w1 k) : svcHas w2 k := by
  unfold svcHas at hk ⊢; rw [← h]; exact hk

/-! ## Lemmas about the service-fact loop -/

/-- The service loop touches only `dim_service`, its sequence, and
`fact_service_costs`. -/
theorem loadServiceEntries_frame (keys : Keys) (es : List LinkedService) :
    ∀ w : Warehouse,
    (loadServiceEntries keys w es).1.dim_organization = w.dim_organization ∧
    (loadServiceEntries keys w es).1.next_org_key = w.next_org_key ∧
    (loadServiceEntries keys w es).1.dim_plan_type = w.dim_plan_type ∧
    (loadServiceEntries keys w es).1.next_plan_type_key = w.next_plan_type_key ∧
    (loadServiceEntries keys w es).1.dim_date = w.dim_date ∧
    (loadServiceEntries keys w es).1.dim_plan = w.dim_plan ∧
    (loadServiceEntries keys w es).1.next_plan_key = w.next_plan_key ∧
    (loadServiceEntries keys w es).1.fact_plan_costs = w.fact_plan_costs ∧
    (loadServiceEntries keys w es).1.etl_audit_log = w.etl_audit_log := by
  induction es with
  | nil => intro w; simp [loadServiceEntries]
  | cons e rest ih =>
    intro w
    simp only [loadServiceEntries]
    simp [ih, getOrCreateService_frame]

/-- The service loop never removes service rows. -/
theorem loadServiceEntries_svcHas_mono (keys : Keys) (es : List LinkedService) :
    ∀ (w : Warehouse) (k : String), svcHas w k →
      svcHas (loadServiceEntries keys w es).1 k := by
  induction es with
  | nil => intro w k h; simpa [loadServiceEntries] using h
  | cons e rest ih =>
    intro w k h
    simp only [loadServiceEntries]
    apply ih
    have h2 := getOrCreateService_mono (svcId e) (svcName e) h
    exact svcHas_congr rfl h2

/-- After the loop, every processed entry's service id is present. -/
theorem loadServiceEntries_has_all (keys : Keys) (es : List LinkedService) :
    ∀ w : Warehouse, ∀ e ∈ es, svcHas (loadServiceEntries keys w es).1 (svcId e) := by
  induction es with
  | nil => intro w e he; cases he
  | cons e0 rest ih =>
    intro w e he
    simp only [loadServiceEntries]
    rcases List.mem_cons.mp he with heq | hmem
    · subst heq
      apply loadServiceEntries_svcHas_mono
      exact svcHas_congr rfl (getOrCreateService_has w (svcId e) (svcName e))
    · exact ih _ e hmem

/-- When every entry's service id is already present, the loop leaves
`dim_service` untouched. -/
theorem loadServiceEntries_of_has (keys : Keys) (es : List LinkedService) :
    ∀ w : Warehouse, (∀ e ∈ es, svcHas w (svcId e)) →
      (loadServiceEntries keys w es).1.dim_service = w.dim_service ∧
      (loadServiceEntries keys w es).1.next_service_key = w.next_service_key := by
  induction es with
  | nil => intro w _; simp [loadServiceEntries]
  | cons e rest ih =>
    intro w h
    simp only [loadServiceEntries]
    have hsvc := getOrCreateService_of_has (svcName e) (h e (by simp))
    rw [hsvc]
    have hrest : ∀ e2 ∈ rest,
        svcHas { w with fact_service_costs := w.fact_service_costs ++
          [⟨(getOrCreateService w (svcId e) (svcName e)).1, keys.plan_key, keys.org_key,
            keys.creation_date_key, svcDeductible e, svcCopay e,
            svcDeductible e + svcCopay e⟩] } (svcId e2) := by
      intro e2 he2
      exact svcHas_congr rfl (h e2 (List.mem_cons_of_mem _ he2))
    obtain ⟨h1, h2⟩ := ih _ hrest
    exact ⟨h1.trans rfl, h2.trans rfl⟩

/-- The rows the loop appends to `fact_service_costs`: one per entry, in
order, with the entry's (defaulted) measures. -/
theorem loadServiceEntries_facts (keys : Keys) (es : List LinkedService) :
    ∀ w : Warehouse, ∃ rows,
      (loadServiceEntries keys w es).1.fact_service_costs = w.fact_service_costs ++ rows ∧
      rows.map (fun r => (r.deductible, r.copay, r.total_service_cost)) =
        es.map (fun e => (svcDeductible e, svcCopay e, svcDeductible e + svcCopay e)) := by
  induction es with
  | nil => intro w; exact ⟨[], by simp [loadServiceEntries], rfl⟩
  | cons e rest ih =>
    intro w
    simp only [loadServiceEntries]
    obtain ⟨rows, h1, h2⟩ := ih { (getOrCreateService w (svcId e) (svcName e)).2 with
      fact_service_costs := (getOrCreateService w (svcId e) (svcName e)).2.fact_service_costs ++
        [⟨(getOrCreateService w (svcId e) (svcName e)).1, keys.plan_key, keys.org_key,
          keys.creation_date_key, svcDeductible e, svcCopay e, svcDeductible e + svcCopay e⟩] }
    refine ⟨⟨(getOrCreateService w (svcId e) (svcName e)).1, keys.plan_key, keys.org_key,
      keys.creation_date_key, svcDeductible e, svcCopay e, svcDeductible e + svcCopay e⟩ :: rows,
      ?_, ?_⟩
    · rw [h1]
      have hfr := (getOrCreateService_frame w (svcId e) (svcName e)).2.2.2.2.2.2.2.2.1
      simp [hfr]
    · simp [h2]

/-- The loop's counter equals the number of entries. -/
theorem loadServiceEntries_count (keys : Keys) (es : List LinkedService) :
    ∀ w : Warehouse, (loadServiceEntries keys w es).2 = es.length := by
  induction es with
  | nil => intro w; rfl
  | cons e rest ih =>
    intro w
    simp only [loadServiceEntries]
    simp [ih]

/-- Presence of an organization id depends only on `dim_organization`. -/
theorem orgHas_congr {w1 w2 : Warehouse} {k : String}
    (h : w1.dim_organization = w2.dim_organization) (hk : orgHas w1 k) : orgHas w2 k := by
  unfold orgHas at hk ⊢; rw [← h]; exact hk

/-- Presence of a plan-type code depends only on `dim_plan_type`. -/
theorem ptHas_congr {w1 w2 : Warehouse} {k : String}
    (h : w1.dim_plan_type = w2.dim_plan_type) (hk : ptHas w1 k) : ptHas w2 k := by
  unfold ptHas at hk ⊢; rw [← h]; exact hk

/-- Presence of a date depends only on `dim_date`. -/
theorem dateHas_congr {w1 w2 : Warehouse} {d : CalDate}
    (h : w1.dim_date = w2.dim_date) (hk : dateHas w1 d) : dateHas w2 d := by
  unfold dateHas at hk ⊢; rw [← h]; exact hk

/-- Presence of a plan id depends only on `dim_plan`. -/
theorem planHas_congr {w1 w2 : Warehouse} {k : String}
    (h : w1.dim_plan = w2.dim_plan) (hk : planHas w1 k) : planHas w2 k := by
  unfold planHas at hk ⊢; rw [← h]; exact hk

/-! ## Lemmas about the plan-fact insert -/

/-- `loadPlanFacts` appends exactly the one computed row. -/
theorem loadPlanFacts_facts (w : Warehouse) (p : PlanDoc) (keys : Keys) :
    (loadPlanFacts w p keys).fact_plan_costs = w.fact_plan_costs ++
      [⟨keys.plan_key, keys.plan_type_key, keys.org_key, keys.creation_date_key,
        planDeductible p, planCopay p, planDeductible p + planCopay p⟩] := rfl

/-- `loadPlanFacts` touches only `fact_plan_costs`. -/
theorem loadPlanFacts_frame (w : Warehouse) (p : PlanDoc) (keys : Keys) :
    (loadPlanFacts w p keys).dim_organization = w.dim_organization ∧
    (loadPlanFacts w p keys).next_org_key = w.next_org_key ∧
    (loadPlanFacts w p keys).dim_plan_type = w.dim_plan_type ∧
    (loadPlanFacts w p keys).next_plan_type_key = w.next_plan_type_key ∧
    (loadPlanFacts w p keys).dim_date = w.dim_date ∧
    (loadPlanFacts w p keys).dim_plan = w.dim_plan ∧
    (loadPlanFacts w p keys).next_plan_key = w.next_plan_key ∧
    (loadPlanFacts w p keys).dim_service = w.dim_service ∧
    (loadPlanFacts w p keys).next_service_key = w.next_service_key ∧
    (loadPlanFacts w p keys).fact_service_costs = w.fact_service_costs ∧
    (loadPlanFacts w p keys).etl_audit_log = w.etl_audit_log :=
  ⟨rfl, rfl, rfl, rfl, rfl, rfl, rfl, rfl, rfl, rfl, rfl⟩

/-! ## Composite lemmas about `loadDimensions` -/

/-- `loadDimensions` touches neither fact tables, the audit log, nor the
service dimension. -/
theorem loadDimensions_frame (w : Warehouse) (p : PlanDoc) (today : CalDate) :
    (loadDimensions w p today).2.dim_service = w.dim_service ∧
    (loadDimensions w p today).2.next_service_key = w.next_service_key ∧
    (loadDimensions w p today).2.fact_plan_costs = w.fact_plan_costs ∧
    (loadDimensions w p today).2.fact_service_costs = w.fact_service_costs ∧
    (loadDimensions w p today).2.etl_audit_log = w.etl_audit_log := by
  simp only [loadDimensions]
  simp [getOrCreatePlan_frame, getOrCreateDateKey_frame, getOrCreatePlanType_frame,
    upsertOrganization_frame]

/-- After `loadDimensions`, all four resolved natural keys are present. -/
theorem loadDimensions_has (w : Warehouse) (p : PlanDoc) (today : CalDate) :
    orgHas (loadDimensions w p today).2 (jsOrStr p._org "unknown") ∧
    ptHas (loadDimensions w p today).2 (normCode (jsOrStr p.planType "unknown")) ∧
    dateHas (loadDimensions w p today).2 (p.creationDate.getD today) ∧
    planHas (loadDimensions w p today).2 (jsOrStr p.objectId p._id) := by
  simp only [loadDimensions]
  refine ⟨?_, ?_, ?_, ?_⟩
  · have h := upsertOrganization_has w (jsOrStr p._org "unknown")
      (jsOrStr p._org "Unknown Organization")
    unfold orgHas at h ⊢
    simp only [getOrCreatePlan_frame, getOrCreateDateKey_frame, getOrCreatePlanType_frame]
    exact h
  · obtain ⟨r, hmem, _, hcode⟩ := getOrCreatePlanType_key_row
      (upsertOrganization w (jsOrStr p._org "unknown")
        (jsOrStr p._org "Unknown Organization")).2
      (normCode (jsOrStr p.planType "unknown")) (jsOrStr p.planType "unknown")
    unfold ptHas
    simp only [getOrCreatePlan_frame, getOrCreateDateKey_frame]
    exact ⟨r, hmem, hcode⟩
  · have h := getOrCreateDateKey_has
      (getOrCreatePlanType (upsertOrganization w (jsOrStr p._org "unknown")
        (jsOrStr p._org "Unknown Organization")).2
        (normCode (jsOrStr p.planType "unknown")) (jsOrStr p.planType "unknown")).2
      (p.creationDate.getD today)
    unfold dateHas at h ⊢
    simp only [getOrCreatePlan_frame]
    exact h
  · exact getOrCreatePlan_has _ _ _ _ _

/-- When all four natural keys are already present, `loadDimensions`
performs only the Type-1 organization update: every dimension row count
is unchanged and the non-organization dimensions are untouched. -/
theorem loadDimensions_of_has (w : Warehouse) (p : PlanDoc) (today : CalDate)
    (ho : orgHas w (jsOrStr p._org "unknown"))
    (hp : ptHas w (normCode (jsOrStr p.planType "unknown")))
    (hd : dateHas w (p.creationDate.getD today))
    (hpl : planHas w (jsOrStr p.objectId p._id)) :
    (loadDimensions w p today).2.dim_organization.length = w.dim_organization.length ∧
    (loadDimensions w p today).2.dim_plan_type = w.dim_plan_type ∧
    (loadDimensions w p today).2.dim_date = w.dim_date ∧
    (loadDimensions w p today).2.dim_plan = w.dim_plan ∧
    (loadDimensions w p today).2.dim_service = w.dim_service ∧
    (loadDimensions w p today).2.next_service_key = w.next_service_key := by
  simp only [loadDimensions]
  have hpA : ptHas (upsertOrganization w (jsOrStr p._org "unknown")
      (jsOrStr p._org "Unknown Organization")).2 (normCode (jsOrStr p.planType "unknown")) := by
    unfold ptHas at hp ⊢
    rw [(upsertOrganization_frame w _ _).1]
    exact hp
  rw [getOrCreatePlanType_of_has _ hpA]
  have hdA : dateHas (upsertOrganization w (jsOrStr p._org "unknown")
      (jsOrStr p._org "Unknown Organization")).2 (p.creationDate.getD today) := by
    unfold dateHas at hd ⊢
    rw [(upsertOrganization_frame w _ _).2.2.1]
    exact hd
  rw [getOrCreateDateKey_of_has hdA]
  have hplA : planHas (upsertOrganization w (jsOrStr p._org "unknown")
      (jsOrStr p._org "Unknown Organization")).2 (jsOrStr p.objectId p._id) := by
    unfold planHas at hpl ⊢
    rw [(upsertOrganization_frame w _ _).2.2.2.1]
    exact hpl
  rw [getOrCreatePlan_of_has hplA]
  refine ⟨upsertOrganization_length_of_has _ ho, ?_, ?_, ?_, ?_, ?_⟩ <;>
    simp [upsertOrganization_frame]

/-! ## Composite lemmas about one document's transaction -/

/-- A document's transaction never writes the audit log. -/
theorem loadDocument_audit (w : Warehouse) (p : PlanDoc) (today : CalDate) :
    (loadDocument w p today).1.etl_audit_log = w.etl_audit_log := by
  simp only [loadDocument, loadServiceFacts]
  rcases p.linkedPlanServices with _ | _ | entries <;>
    simp [loadServiceEntries, loadServiceEntries_frame, loadPlanFacts_frame,
      loadDimensions_frame]

/-- After one document's transaction, all the natural keys it resolved are
present in their dimensions. -/
theorem loadDocument_has (w : Warehouse) (p : PlanDoc) (today : CalDate) :
    orgHas (loadDocument w p today).1 (jsOrStr p._org "unknown") ∧
    ptHas (loadDocument w p today).1 (normCode (jsOrStr p.planType "unknown")) ∧
    dateHas (loadDocument w p today).1 (p.creationDate.getD today) ∧
    planHas (loadDocument w p today).1 (jsOrStr p.objectId p._id) ∧
    (∀ e ∈ entriesOf p, svcHas (loadDocument w p today).1 (svcId e)) := by
  obtain ⟨ho, hp, hd, hpl⟩ := loadDimensions_has w p today
  simp only [loadDocument, loadServiceFacts, entriesOf]
  rcases hls : p.linkedPlanServices with _ | _ | entries
  · refine ⟨?_, ?_, ?_, ?_, ?_⟩
    · exact orgHas_congr (by simp [loadServiceEntries, loadPlanFacts_frame]) ho
    · exact ptHas_congr (by simp [loadServiceEntries, loadPlanFacts_frame]) hp
    · exact dateHas_congr (by simp [loadServiceEntries, loadPlanFacts_frame]) hd
    · exact planHas_congr (by simp [loadServiceEntries, loadPlanFacts_frame]) hpl
    · intro e he; cases he
  · refine ⟨?_, ?_, ?_, ?_, ?_⟩
    · exact orgHas_congr (by simp [loadPlanFacts_frame]) ho
    · exact ptHas_congr (by simp [loadPlanFacts_frame]) hp
    · exact dateHas_congr (by simp [loadPlanFacts_frame]) hd
    · exact planHas_congr (by simp [loadPlanFacts_frame]) hpl
    · intro e he; cases he
  · refine ⟨?_, ?_, ?_, ?_, ?_⟩
    · exact orgHas_congr (by simp [loadServiceEntries_frame, loadPlanFacts_frame]) ho
    · exact ptHas_congr (by simp [loadServiceEntries_frame, loadPlanFacts_frame]) hp
    · exact dateHas_congr (by simp [loadServiceEntries_frame, loadPlanFacts_frame]) hd
    · exact planHas_congr (by simp [loadServiceEntries_frame, loadPlanFacts_frame]) hpl
    · intro e he
      exact loadServiceEntries_has_all _ entries _ e he

/-- When every natural key a document resolves is already present, its
transaction adds exactly one plan-cost fact and leaves every dimension
row count unchanged. -/
theorem loadDocument_of_has (w : Warehouse) (p : PlanDoc) (today : CalDate)
    (ho : orgHas w (jsOrStr p._org "unknown"))
    (hp : ptHas w (normCode (jsOrStr p.planType "unknown")))
    (hd : dateHas w (p.creationDate.getD today))
    (hpl : planHas w (jsOrStr p.objectId p._id))
    (hsv : ∀ e ∈ entriesOf p, svcHas w (svcId e)) :
    (loadDocument w p today).1.dim_organization.length = w.dim_organization.length ∧
    (loadDocument w p today).1.dim_plan_type.length = w.dim_plan_type.length ∧
    (loadDocument w p today).1.dim_date.length = w.dim_date.length ∧
    (loadDocument w p today).1.dim_plan.length = w.dim_plan.length ∧
    (loadDocument w p today).1.dim_service.length = w.dim_service.length ∧
    (loadDocument w p today).1.fact_plan_costs.length = w.fact_plan_costs.length + 1 := by
  obtain ⟨l1, l2, l3, l4, l5, l6⟩ := loadDimensions_of_has w p today ho hp hd hpl
  simp only [loadDocument, loadServiceFacts]
  rcases hls : p.linkedPlanServices with _ | _ | entries
  · refine ⟨?_, ?_, ?_, ?_, ?_, ?_⟩ <;>
      simp [loadServiceEntries, loadPlanFacts_frame, loadPlanFacts_facts, l1, l2, l3, l4, l5,
        loadDimensions_frame]
  · refine ⟨?_, ?_, ?_, ?_, ?_, ?_⟩ <;>
      simp [loadPlanFacts_frame, loadPlanFacts_facts, l1, l2, l3, l4, l5, loadDimensions_frame]
  · have hsv2 : ∀ e ∈ entries,
        svcHas (loadPlanFacts (loadDimensions w p today).2 p (loadDimensions w p today).1)
          (svcId e) := by
      intro e he
      have hsw : svcHas w (svcId e) := by
        apply hsv; simp [entriesOf, hls]; exact he
      apply svcHas_congr _ hsw
      rw [(loadPlanFacts_frame _ _ _).2.2.2.2.2.2.2.1, l5]
    obtain ⟨s1, s2⟩ := loadServiceEntries_of_has (loadDimensions w p today).1 entries
      (loadPlanFacts (loadDimensions w p today).2 p (loadDimensions w p today).1) hsv2
    refine ⟨?_, ?_, ?_, ?_, ?_, ?_⟩
    · simp [loadServiceEntries_frame, loadPlanFacts_frame, l1]
    · simp [loadServiceEntries_frame, loadPlanFacts_frame, l2]
    · simp [loadServiceEntries_frame, loadPlanFacts_frame, l3]
    · simp [loadServiceEntries_frame, loadPlanFacts_frame, l4]
    · rw [s1, (loadPlanFacts_frame _ _ _).2.2.2.2.2.2.2.1, l5]
    · simp [loadServiceEntries_frame, loadPlanFacts_facts, loadDimensions_frame]

/-! ## Lemmas about the per-document loop and the audit write -/

/-- Statistics bookkeeping of the document loop: extraction count and
timestamps are untouched; errors grow by exactly the number of failing
documents; every document is either loaded or counted as failed. -/
theorem processPlans_stats (dbFail : Nat → Bool) (today : CalDate) (plans : List PlanDoc) :
    ∀ (i : Nat) (w : Warehouse) (st : Stats),
    (processPlans dbFail today i w st plans).2.plansExtracted = st.plansExtracted ∧
    (processPlans dbFail today i w st plans).2.startTime = st.startTime ∧
    (processPlans dbFail today i w st plans).2.endTime = st.endTime ∧
    (processPlans dbFail today i w st plans).2.errors
      = st.errors + failCount dbFail i plans.length ∧
    (processPlans dbFail today i w st plans).2.plansLoaded
        + (processPlans dbFail today i w st plans).2.errors
      = st.plansLoaded + st.errors + plans.length := by
  induction plans with
  | nil => intro i w st; simp [processPlans, failCount]
  | cons p rest ih =>
    intro i w st
    simp only [processPlans]
    by_cases hf : dbFail i
    · have key := ih (i + 1) w { st with errors := st.errors + 1 }
      simp only [hf, if_true]
      simp at key
      obtain ⟨a1, a2, a3, a4, a5⟩ := key
      refine ⟨a1, a2, a3, ?_, ?_⟩ <;> simp [failCount, hf] <;> omega
    · have key := ih (i + 1) (loadDocument w p today).1
        { st with
            plansLoaded := st.plansLoaded + 1
            servicesLoaded := st.servicesLoaded + (loadDocument w p today).2 }
      simp only [hf, if_false]
      simp at key
      obtain ⟨a1, a2, a3, a4, a5⟩ := key
      refine ⟨a1, a2, a3, ?_, ?_⟩ <;> simp [failCount, hf] <;> omega

/-- The document loop never writes the audit log. -/
theorem processPlans_audit (dbFail : Nat → Bool) (today : CalDate) (plans : List PlanDoc) :
    ∀ (i : Nat) (w : Warehouse) (st : Stats),
    (processPlans dbFail today i w st plans).1.etl_audit_log = w.etl_audit_log := by
  induction plans with
  | nil => intro i w st; rfl
  | cons p rest ih =>
    intro i w st
    simp only [processPlans]
    by_cases hf : dbFail i
    · simp only [hf, if_true]; exact ih _ _ _
    · simp only [hf, if_false]
      exact (ih _ _ _).trans (loadDocument_audit w p today)

/-- When every document fails, every transaction is rolled back and the
warehouse is byte-for-byte unchanged by the loop. -/
theorem processPlans_all_fail (dbFail : Nat → Bool) (today : CalDate) (plans : List PlanDoc)
    (hall : ∀ i, dbFail i = true) :
    ∀ (i : Nat) (w : Warehouse) (st : Stats),
    (processPlans dbFail today i w st plans).1 = w := by
  induction plans with
  | nil => intro i w st; rfl
  | cons p rest ih =>
    intro i w st
    simp only [processPlans, hall i, if_true]
    exact ih _ _ _

/-- The audit insert touches only `etl_audit_log`. -/
theorem logETLRun_frame (w : Warehouse) (st : Stats) :
    (logETLRun w st).dim_organization = w.dim_organization ∧
    (logETLRun w st).dim_plan_type = w.dim_plan_type ∧
    (logETLRun w st).dim_date = w.dim_date ∧
    (logETLRun w st).dim_plan = w.dim_plan ∧
    (logETLRun w st).dim_service = w.dim_service ∧
    (logETLRun w st).fact_plan_costs = w.fact_plan_costs ∧
    (logETLRun w st).fact_service_costs = w.fact_service_costs :=
  ⟨rfl, rfl, rfl, rfl, rfl, rfl, rfl⟩

/-- The exact audit row `logETLRun` appends. -/
theorem logETLRun_audit (w : Warehouse) (st : Stats) :
    (logETLRun w st).etl_audit_log = w.etl_audit_log ++
      [⟨"MongoDB to PostgreSQL ETL", "FULL_LOAD",
        jsDateNum st.startTime, jsDateNum st.endTime,
        if st.errors = 0 then "SUCCESS" else "PARTIAL_SUCCESS",
        st.plansExtracted, st.plansLoaded, 0, st.errors,
        if st.errors > 0 then some (toString st.errors ++ " plans failed to load")
        else none⟩] := rfl

namespace Watcher

/-! ## Lemmas about the watcher's event loop -/

theorem countSpawns_append (a b : List CoordAction) :
    countSpawns (a ++ b) = countSpawns a + countSpawns b := by
  simp [countSpawns]

theorem countFollowUps_append (a b : List CoordAction) :
    countFollowUps (a ++ b) = countFollowUps a + countFollowUps b := by
  simp [countFollowUps]

theorem coordExec_append (l1 l2 : List CoordEvent) : ∀ s : CoordState,
    coordExec s (l1 ++ l2) =
      ((coordExec (coordExec s l1).1 l2).1,
       (coordExec s l1).2 ++ (coordExec (coordExec s l1).1 l2).2) := by
  induction l1 with
  | nil => intro s; simp [coordExec]
  | cons e rest ih =>
    intro s
    simp only [List.cons_append, coordExec, List.append_eq]
    rw [ih]
    simp [List.append_assoc]

/-- Notifications delivered while a run is in flight only accumulate in
the queue; no action is emitted. -/
theorem coordExec_changes (ts : List Nat) : ∀ q : List Nat,
    coordExec ⟨true, q⟩ (ts.map CoordEvent.change) = (⟨true, q ++ ts⟩, []) := by
  induction ts with
  | nil => intro q; simp [coordExec]
  | cons t rest ih =>
    intro q
    simp only [List.map_cons, coordExec, coordStep, runETLTrigger]
    simp only [if_true]
    rw [ih (q ++ [t])]
    simp

/-- Spawns and closes balance along any valid trace: the difference is
exactly the in-flight flag. -/
theorem spawn_close_balance (evs : List CoordEvent) : ∀ s : CoordState,
    validFrom s evs = true →
    countSpawns (coordExec s evs).2 + (if s.etlRunning then 1 else 0)
      = countCloses evs + (if (coordExec s evs).1.etlRunning then 1 else 0) := by
  induction evs with
  | nil => intro s _; simp [coordExec, countSpawns, countCloses]
  | cons e rest ih =>
    intro s hv
    simp only [validFrom, Bool.and_eq_true] at hv
    obtain ⟨hc, hv'⟩ := hv
    cases e with
    | change t =>
      simp only [coordStep] at hv'
      cases hr : s.etlRunning with
      | true =>
        simp only [runETLTrigger, hr, if_true] at hv'
        simp only [coordExec, coordStep, runETLTrigger, hr, if_true]
        have h2 := ih _ hv'
        simp [countSpawns, countCloses, isSpawn, isClose] at h2 ⊢
        omega
      | false =>
        simp only [runETLTrigger, hr, if_false] at hv'
        simp only [coordExec, coordStep, runETLTrigger, hr, if_false]
        have h2 := ih _ hv'
        simp [countSpawns, countCloses, isSpawn, isClose] at h2 ⊢
        omega
    | timerFire t =>
      simp only [coordStep] at hv'
      cases hr : s.etlRunning with
      | true =>
        simp only [runETLTrigger, hr, if_true] at hv'
        simp only [coordExec, coordStep, runETLTrigger, hr, if_true]
        have h2 := ih _ hv'
        simp [countSpawns, countCloses, isSpawn, isClose] at h2 ⊢
        omega
      | false =>
        simp only [runETLTrigger, hr, if_false] at hv'
        simp only [coordExec, coordStep, runETLTrigger, hr, if_false]
        have h2 := ih _ hv'
        simp [countSpawns, countCloses, isSpawn, isClose] at h2 ⊢
        omega
    | closeRun =>
      simp only [if_true] at hc
      simp only [coordStep] at hv'
      simp only [coordExec, coordStep]
      by_cases hq : s.etlQueue.length > 0
      · simp only [onProcessClose, hq, if_true] at hv' ⊢
        have h2 := ih _ hv'
        simp [countFollowUps, isFollowUp, countSpawns, isSpawn, countCloses, isClose,
          hc] at h2 ⊢
        omega
      · simp only [onProcessClose, hq, if_false] at hv' ⊢
        have h2 := ih _ hv'
        simp [countSpawns, isSpawn, countCloses, isClose, hc] at h2 ⊢
        omega

/-- Validity is closed under taking prefixes. -/
theorem validFrom_take (evs : List CoordEvent) : ∀ (s : CoordState) (n : Nat),
    validFrom s evs = true → validFrom s (evs.take n) = true := by
  induction evs with
  | nil => intro s n _; simp [validFrom]
  | cons e rest ih =>
    intro s n hv
    cases n with
    | zero => simp [validFrom]
    | succ m =>
      simp only [List.take_succ_cons, validFrom, Bool.and_eq_true] at hv ⊢
      exact ⟨hv.1, ih _ m hv.2⟩

end Watcher

/-! ## Further date-key lemmas -/

/-- Over a YYYYMMDD-consistent warehouse the returned key is always the
date's YYYYMMDD integer, found or created. -/
theorem getOrCreateDateKey_key {w : Warehouse} (hw : DateDimConsistent w) (d : CalDate) :
    (getOrCreateDateKey w d).1 = ymdKey d := by
  rcases ho : w.dim_date.find? (fun x => decide (x.date_value = d)) with _ | r
  · rw [getOrCreateDateKey_none ho]
  · obtain ⟨hmem, hval⟩ := mem_key_of_find?_eq_some ho
    rw [getOrCreateDateKey_found ho]
    have := hw r hmem
    rw [this, hval]

/-- YYYYMMDD-consistency is preserved by date-key resolution. -/
theorem getOrCreateDateKey_consistent {w : Warehouse} (hw : DateDimConsistent w) (d : CalDate) :
    DateDimConsistent (getOrCreateDateKey w d).2 := by
  rcases ho : w.dim_date.find? (fun x => decide (x.date_value = d)) with _ | r
  · rw [getOrCreateDateKey_none ho]
    intro r hr
    simp only [List.mem_append, List.mem_singleton] at hr
    rcases hr with hl | he
    · exact hw r hl
    · subst he; rfl
  · rw [getOrCreateDateKey_found ho]; exact hw

/-- The one `fact_plan_costs` row a document's transaction appends,
carrying the surrogate keys its dimension resolution returned. -/
theorem loadDocument_plan_fact (w : Warehouse) (p : PlanDoc) (today : CalDate) :
    (loadDocument w p today).1.fact_plan_costs = w.fact_plan_costs ++
      [⟨(loadDimensions w p today).1.plan_key, (loadDimensions w p today).1.plan_type_key,
        (loadDimensions w p today).1.org_key, (loadDimensions w p today).1.creation_date_key,
        planDeductible p, planCopay p, planDeductible p + planCopay p⟩] := by
  simp only [loadDocument, loadServiceFacts]
  rcases p.linkedPlanServices with _ | _ | entries <;>
    simp [loadServiceEntries, loadServiceEntries_frame, loadPlanFacts_facts,
      loadDimensions_frame]

/-! ## Claim theorems -/

/-- Claim C4: For all calendar dates `d1 = d2` (same value, possibly
distinct object instances), the date-key function returns the same
integer, namely the date's year, month and day concatenated decimally as
YYYYMMDD — whether the `dim_date` row is created by the call or already
existed.  The hypothesis says every pre-existing `dim_date` row keys its
date as YYYYMMDD, which holds for every row this pipeline writes (shown
by the consistency conjunct) and for the schema's seeded 2017-2030
rows. -/
theorem dateKey_deterministic_yyyymmdd (w : Warehouse) (d1 d2 : CalDate)
    (hw : DateDimConsistent w) (heq : d1 = d2) :
    (getOrCreateDateKey w d1).1 = ymdKey d1 ∧
    ymdKey d1 = d1.year * 10000 + d1.month * 100 + d1.day ∧
    (getOrCreateDateKey w d2).1 = (getOrCreateDateKey w d1).1 ∧
    DateDimConsistent (getOrCreateDateKey w d1).2 ∧
    (getOrCreateDateKey (getOrCreateDateKey w d1).2 d2).1 = (getOrCreateDateKey w d1).1 := by
  subst heq
  have h1 := getOrCreateDateKey_key hw d1
  have hc := getOrCreateDateKey_consistent hw d1
  have h2 := getOrCreateDateKey_key hc d1
  exact ⟨h1, rfl, rfl, hc, h2.trans h1.symm⟩

/-- Witness for C4 at 2024-01-15 over a fresh warehouse: both the
creating call and the subsequent read return 20240115. -/
theorem dateKey_deterministic_yyyymmdd_witness :
    DateDimConsistent emptyWarehouse ∧
    (getOrCreateDateKey emptyWarehouse ⟨2024, 1, 15⟩).1 = 20240115 ∧
    (getOrCreateDateKey (getOrCreateDateKey emptyWarehouse ⟨2024, 1, 15⟩).2
      ⟨2024, 1, 15⟩).1 = 20240115 := by
  have hw : DateDimConsistent emptyWarehouse := by
    intro r hr; simp [emptyWarehouse] at hr
  obtain ⟨a1, -, -, -, a5⟩ :=
    dateKey_deterministic_yyyymmdd emptyWarehouse ⟨2024, 1, 15⟩ ⟨2024, 1, 15⟩ hw rfl
  refine ⟨hw, ?_, ?_⟩
  · rw [a1]; decide
  · rw [a5, a1]; decide

/-- Claim C6: Every invocation of the plan-cost fact loader inserts exactly
one `fact_plan_costs` row, whose `total_cost_shares` equals the
deductible plus copay the loader extracted — e.g. deductible 2000 and
copay 23 store total 2023 — independent of anything else in the input
document. -/
theorem plan_fact_single_row_total (w : Warehouse) (p : PlanDoc) (keys : Keys) :
    (loadPlanFacts w p keys).fact_plan_costs = w.fact_plan_costs ++
      [⟨keys.plan_key, keys.plan_type_key, keys.org_key, keys.creation_date_key,
        planDeductible p, planCopay p, planDeductible p + planCopay p⟩] ∧
    (loadPlanFacts w p keys).fact_plan_costs.length = w.fact_plan_costs.length + 1 ∧
    planDeductible sampleDoc = 2000 ∧ planCopay sampleDoc = 23 ∧
    ((loadPlanFacts w sampleDoc keys).fact_plan_costs.getLast?.map
      (fun r => r.total_cost_shares)) = some 2023 := by
  refine ⟨loadPlanFacts_facts w p keys, by simp [loadPlanFacts_facts], by decide, by decide, ?_⟩
  rw [loadPlanFacts_facts, List.getLast?_concat]
  norm_num [planDeductible, planCopay, sampleDoc, jsOrInt]

/-- Claim C7: The number of `fact_service_costs` rows a document inserts
equals the length of its linked-services list when that field is a list;
a missing or non-list field inserts zero rows; and an entry without cost
data still produces a row with deductible and copay defaulted to zero. -/
theorem service_fact_count_and_defaults (w : Warehouse) (p : PlanDoc) (keys : Keys) :
    (p.linkedPlanServices = ServicesField.missing →
      (loadServiceFacts w p keys).1.fact_service_costs = w.fact_service_costs) ∧
    (p.linkedPlanServices = ServicesField.notList →
      (loadServiceFacts w p keys).1.fact_service_costs = w.fact_service_costs) ∧
    (∀ entries, p.linkedPlanServices = ServicesField.list entries →
      (loadServiceFacts w p keys).1.fact_service_costs.length
        = w.fact_service_costs.length + entries.length ∧
      (loadServiceFacts w p keys).1.fact_service_costs.take w.fact_service_costs.length
        = w.fact_service_costs ∧
      ((loadServiceFacts w p keys).1.fact_service_costs.drop
          w.fact_service_costs.length).map
          (fun r => (r.deductible, r.copay, r.total_service_cost))
        = entries.map (fun e => (svcDeductible e, svcCopay e, svcDeductible e + svcCopay e))) ∧
    (∀ e : LinkedService, e.linkedService = none →
      svcDeductible e = 0 ∧ svcCopay e = 0) := by
  refine ⟨?_, ?_, ?_, ?_⟩
  · intro h; simp [loadServiceFacts, h, loadServiceEntries]
  · intro h; simp [loadServiceFacts, h]
  · intro entries h
    obtain ⟨rows, hr1, hr2⟩ := loadServiceEntries_facts keys entries w
    have hfacts : (loadServiceFacts w p keys).1.fact_service_costs
        = w.fact_service_costs ++ rows := by
      simp only [loadServiceFacts, h]; exact hr1
    have hlen : rows.length = entries.length := by
      have hmap := congrArg List.length hr2; simpa using hmap
    refine ⟨?_, ?_, ?_⟩
    · rw [hfacts]; simp [hlen]
    · rw [hfacts, List.take_left]
    · rw [hfacts, List.drop_left]; exact hr2
  · intro e h
    constructor <;> simp [svcDeductible, svcCopay, svcCostShares, h, jsOrInt]

/-- Witness for C7: one linked service without cost data inserts exactly
one row with zero deductible, zero copay, zero total. -/
theorem service_fact_count_and_defaults_witness :
    (loadServiceFacts emptyWarehouse svcDoc ⟨1, 1, 20240201, 1⟩).1.fact_service_costs.length
      = 1 ∧
    ((loadServiceFacts emptyWarehouse svcDoc ⟨1, 1, 20240201, 1⟩).1.fact_service_costs.map
      (fun r => (r.deductible, r.copay, r.total_service_cost))) = [(0, 0, 0)] ∧
    svcDeductible noCostEntry = 0 ∧ svcCopay noCostEntry = 0 := by
  have h := service_fact_count_and_defaults emptyWarehouse svcDoc ⟨1, 1, 20240201, 1⟩
  have h3 := h.2.2.1 [noCostEntry] rfl
  have h4 := h.2.2.2 noCostEntry rfl
  refine ⟨?_, ?_, h4.1, h4.2⟩
  · simpa [emptyWarehouse] using h3.1
  · have hm := h3.2.2
    simp only [emptyWarehouse] at hm
    simpa [h4.1, h4.2] using hm

/-- Claim C9: When the watcher starts and its change stream is established,
it invokes exactly one pipeline run immediately, before any change
notification has been received. -/
theorem startup_triggers_one_run :
    Watcher.startupRun = (⟨true, []⟩, [Watcher.CoordAction.spawnETL]) ∧
    Watcher.countSpawns Watcher.startupRun.2 = 1 := by
  exact ⟨rfl, rfl⟩

/-- Claim C10: A document missing its organization field or its plan-type
field is not failed: the organization resolves under the sentinel natural
key "unknown" with display name "Unknown Organization", the plan type
under the normalized code "unknown", and the document's plan-cost fact is
loaded against exactly those sentinel dimension keys. -/
theorem sentinel_unknown_dimensions (w : Warehouse) (p : PlanDoc) (today : CalDate)
    (horg : p._org = none) (hpt : p.planType = none) :
    (∃ r ∈ (loadDimensions w p today).2.dim_organization,
      r.org_key = (loadDimensions w p today).1.org_key ∧
      r.org_id = "unknown" ∧ r.org_name = "Unknown Organization") ∧
    (∃ r ∈ (loadDimensions w p today).2.dim_plan_type,
      r.plan_type_key = (loadDimensions w p today).1.plan_type_key ∧
      r.plan_type_code = "unknown") ∧
    (loadDocument w p today).1.fact_plan_costs.length = w.fact_plan_costs.length + 1 ∧
    ((loadDocument w p today).1.fact_plan_costs.drop w.fact_plan_costs.length).map
      (fun r => (r.org_key, r.plan_type_key))
      = [((loadDimensions w p today).1.org_key,
          (loadDimensions w p today).1.plan_type_key)] := by
  have e1 : jsOrStr p._org "unknown" = "unknown" := by rw [horg]; rfl
  have e2 : jsOrStr p._org "Unknown Organization" = "Unknown Organization" := by
    rw [horg]; rfl
  have e3 : normCode (jsOrStr p.planType "unknown") = "unknown" := by rw [hpt]; decide
  refine ⟨?_, ?_, ?_, ?_⟩
  · have htab : (loadDimensions w p today).2.dim_organization
        = (upsertOrganization w (jsOrStr p._org "unknown")
            (jsOrStr p._org "Unknown Organization")).2.dim_organization := by
      simp only [loadDimensions]
      simp [getOrCreatePlan_frame, getOrCreateDateKey_frame, getOrCreatePlanType_frame]
    have hkey : (loadDimensions w p today).1.org_key
        = (upsertOrganization w (jsOrStr p._org "unknown")
            (jsOrStr p._org "Unknown Organization")).1 := by
      simp only [loadDimensions]
    rw [htab, hkey, e1, e2]
    exact upsertOrganization_key_row w "unknown" "Unknown Organization"
  · have htab : (loadDimensions w p today).2.dim_plan_type
        = (getOrCreatePlanType (upsertOrganization w (jsOrStr p._org "unknown")
            (jsOrStr p._org "Unknown Organization")).2
            (normCode (jsOrStr p.planType "unknown"))
            (jsOrStr p.planType "unknown")).2.dim_plan_type := by
      simp only [loadDimensions]
      simp [getOrCreatePlan_frame, getOrCreateDateKey_frame]
    have hkey : (loadDimensions w p today).1.plan_type_key
        = (getOrCreatePlanType (upsertOrganization w (jsOrStr p._org "unknown")
            (jsOrStr p._org "Unknown Organization")).2
            (normCode (jsOrStr p.planType "unknown"))
            (jsOrStr p.planType "unknown")).1 := by
      simp only [loadDimensions]
    rw [htab, hkey, e3]
    exact getOrCreatePlanType_key_row _ "unknown" _
  · rw [loadDocument_plan_fact]; simp
  · rw [loadDocument_plan_fact, List.drop_left]; simp

/-- Witness for C10 on a concrete document with no organization and no
plan type. -/
theorem sentinel_unknown_dimensions_witness :
    (∃ r ∈ (loadDimensions emptyWarehouse unknownDoc ⟨2024, 1, 15⟩).2.dim_organization,
      r.org_key = (loadDimensions emptyWarehouse unknownDoc ⟨2024, 1, 15⟩).1.org_key ∧
      r.org_id = "unknown" ∧ r.org_name = "Unknown Organization") ∧
    (∃ r ∈ (loadDimensions emptyWarehouse unknownDoc ⟨2024, 1, 15⟩).2.dim_plan_type,
      r.plan_type_key
        = (loadDimensions emptyWarehouse unknownDoc ⟨2024, 1, 15⟩).1.plan_type_key ∧
      r.plan_type_code = "unknown") ∧
    (loadDocument emptyWarehouse unknownDoc ⟨2024, 1, 15⟩).1.fact_plan_costs.length
      = emptyWarehouse.fact_plan_costs.length + 1 ∧
    ((loadDocument emptyWarehouse unknownDoc ⟨2024, 1, 15⟩).1.fact_plan_costs.drop
        emptyWarehouse.fact_plan_costs.length).map (fun r => (r.org_key, r.plan_type_key))
      = [((loadDimensions emptyWarehouse unknownDoc ⟨2024, 1, 15⟩).1.org_key,
          (loadDimensions emptyWarehouse unknownDoc ⟨2024, 1, 15⟩).1.plan_type_key)] :=
  sentinel_unknown_dimensions emptyWarehouse unknownDoc ⟨2024, 1, 15⟩ rfl rfl

/-- Claim C5: Loading the identical document a second time, onto the
warehouse state left by the first load, inserts a second
`fact_plan_costs` row while the row count of every dimension table
(organization, plan type, date, plan, service) stays unchanged —
dimension resolution is get-or-create across runs.  (When the document
carries no creation date the two runs must fall on the same calendar
day, since the loader then stamps the current date.) -/
theorem reload_accumulates_fact_keeps_dims (w : Warehouse) (p : PlanDoc)
    (today today2 : CalDate)
    (hcd : p.creationDate.isSome = true ∨ today2 = today) :
    (loadDocument (loadDocument w p today).1 p today2).1.fact_plan_costs.length
      = (loadDocument w p today).1.fact_plan_costs.length + 1 ∧
    (loadDocument (loadDocument w p today).1 p today2).1.dim_organization.length
      = (loadDocument w p today).1.dim_organization.length ∧
    (loadDocument (loadDocument w p today).1 p today2).1.dim_plan_type.length
      = (loadDocument w p today).1.dim_plan_type.length ∧
    (loadDocument (loadDocument w p today).1 p today2).1.dim_date.length
      = (loadDocument w p today).1.dim_date.length ∧
    (loadDocument (loadDocument w p today).1 p today2).1.dim_plan.length
      = (loadDocument w p today).1.dim_plan.length ∧
    (loadDocument (loadDocument w p today).1 p today2).1.dim_service.length
      = (loadDocument w p today).1.dim_service.length := by
  obtain ⟨ho, hp, hd, hpl, hsv⟩ := loadDocument_has w p today
  have hd2 : dateHas (loadDocument w p today).1 (p.creationDate.getD today2) := by
    rcases hcd with hs | he
    · obtain ⟨d, hdp⟩ := Option.isSome_iff_exists.mp hs
      rw [hdp] at hd ⊢
      simpa using hd
    · rw [he]; exact hd
  obtain ⟨b1, b2, b3, b4, b5, b6⟩ :=
    loadDocument_of_has (loadDocument w p today).1 p today2 ho hp hd2 hpl hsv
  exact ⟨b6, b1, b2, b3, b4, b5⟩

/-- Witness for C5: reloading the scenario document doubles the plan
facts while the organization dimension keeps its single row. -/
theorem reload_accumulates_fact_keeps_dims_witness :
    (sampleDoc.creationDate.isSome = true ∨ (⟨2024, 6, 1⟩ : CalDate) = ⟨2024, 6, 1⟩) ∧
    (loadDocument (loadDocument emptyWarehouse sampleDoc ⟨2024, 6, 1⟩).1 sampleDoc
        ⟨2024, 6, 1⟩).1.fact_plan_costs.length
      = (loadDocument emptyWarehouse sampleDoc ⟨2024, 6, 1⟩).1.fact_plan_costs.length + 1 ∧
    (loadDocument emptyWarehouse sampleDoc ⟨2024, 6, 1⟩).1.fact_plan_costs.length = 1 ∧
    (loadDocument (loadDocument emptyWarehouse sampleDoc ⟨2024, 6, 1⟩).1 sampleDoc
        ⟨2024, 6, 1⟩).1.dim_organization.length
      = (loadDocument emptyWarehouse sampleDoc ⟨2024, 6, 1⟩).1.dim_organization.length ∧
    (loadDocument emptyWarehouse sampleDoc ⟨2024, 6, 1⟩).1.dim_organization.length = 1 := by
  have h := reload_accumulates_fact_keeps_dims emptyWarehouse sampleDoc ⟨2024, 6, 1⟩
    ⟨2024, 6, 1⟩ (Or.inl rfl)
  exact ⟨Or.inl rfl, h.1, by decide, h.2.1, by decide⟩

/-- Claim C2: A run over `N` documents of which `k` fail completes without
throwing (the catch block is not reached, so the result is the normal
`undefined`), writes exactly one audit record reporting
`records_processed = N` and `records_failed = k`, counts
`records_inserted = N - k` loaded documents, and — when every document
fails — leaves the warehouse's fact and dimension tables untouched: each
failing document's transaction was rolled back while processing
continued. -/
theorem run_isolates_document_failures (dbFail : Nat → Bool) (today : CalDate)
    (t0 t1 : Int) (plans : List PlanDoc) (w : Warehouse) :
    (runETL true true dbFail today t0 t1 plans w).result = none ∧
    (runETL true true dbFail today t0 t1 plans w).warehouse.etl_audit_log.length
      = w.etl_audit_log.length + 1 ∧
    (runETL true true dbFail today t0 t1 plans w).warehouse.etl_audit_log.getLast?.map
      (fun r => (r.records_processed, r.records_failed, r.records_inserted))
      = some (plans.length, failCount dbFail 0 plans.length,
          plans.length - failCount dbFail 0 plans.length) ∧
    (runETL true true dbFail today t0 t1 plans w).stats.errors
      = failCount dbFail 0 plans.length ∧
    ((∀ i, dbFail i = true) →
      (runETL true true dbFail today t0 t1 plans w).warehouse.fact_plan_costs
        = w.fact_plan_costs ∧
      (runETL true true dbFail today t0 t1 plans w).warehouse.dim_organization
        = w.dim_organization ∧
      (runETL true true dbFail today t0 t1 plans w).warehouse.dim_plan = w.dim_plan) := by
  have hstats := processPlans_stats dbFail today plans 0 w
    ⟨plans.length, 0, 0, 0, some t0, none⟩
  simp at hstats
  obtain ⟨a1, a2, a3, a4, a5⟩ := hstats
  have haudit := processPlans_audit dbFail today plans 0 w
    ⟨plans.length, 0, 0, 0, some t0, none⟩
  have hload : (processPlans dbFail today 0 w ⟨plans.length, 0, 0, 0, some t0, none⟩
      plans).2.plansLoaded = plans.length - failCount dbFail 0 plans.length := by
    omega
  refine ⟨?_, ?_, ?_, ?_, ?_⟩
  · simp [runETL, initialStats]
  · simp [runETL, initialStats, logETLRun_audit, haudit]
  · simp [runETL, initialStats, logETLRun_audit, List.getLast?_concat, a1, a4, hload]
  · simp [runETL, initialStats, a4]
  · intro hall
    have hwall := processPlans_all_fail dbFail today plans hall 0 w
      ⟨plans.length, 0, 0, 0, some t0, none⟩
    refine ⟨?_, ?_, ?_⟩ <;>
      simp [runETL, initialStats, hwall, logETLRun_frame]

/-- Witness for C2: one document, one forced failure — the audit row
reports 1 processed, 1 failed, 0 inserted, and the warehouse facts are
untouched. -/
theorem run_isolates_document_failures_witness :
    (runETL true true (fun _ => true) ⟨2024, 1, 15⟩ 5 9 [sampleDoc]
      emptyWarehouse).result = none ∧
    (runETL true true (fun _ => true) ⟨2024, 1, 15⟩ 5 9 [sampleDoc]
      emptyWarehouse).warehouse.etl_audit_log.getLast?.map
      (fun r => (r.records_processed, r.records_failed, r.records_inserted))
      = some (1, 1, 0) ∧
    (runETL true true (fun _ => true) ⟨2024, 1, 15⟩ 5 9 [sampleDoc]
      emptyWarehouse).stats.errors = 1 ∧
    (runETL true true (fun _ => true) ⟨2024, 1, 15⟩ 5 9 [sampleDoc]
      emptyWarehouse).warehouse.fact_plan_costs = [] := by
  have h := run_isolates_document_failures (fun _ => true) ⟨2024, 1, 15⟩ 5 9 [sampleDoc]
    emptyWarehouse
  have h5 := h.2.2.2.2 (fun i => rfl)
  refine ⟨h.1, ?_, ?_, ?_⟩
  · simpa [failCount] using h.2.2.1
  · simpa [failCount] using h.2.2.2.1
  · simpa [emptyWarehouse] using h5.1

/-- Claim C3 (code bug): The audit insert runs at etl_runner.js line 350,
before `stats.endTime = Date.now()` at line 352, so the audit row's
`end_time` is `new Date(null)` — the 1970 epoch — and `end_time -
start_time` is `-start_time`, not the run's elapsed time: here a run
spanning 1000000 → 1005000 ms records `end_time = 0` even though the
stats object is stamped with 1005000 immediately afterwards.  The
always-written and `inserted + failed ≤ processed` parts of the claim do
hold (shown by the last conjunct for this run). -/
theorem audit_end_time_epoch_bug :
    ((runETL true true (fun _ => false) ⟨2024, 1, 15⟩ 1000000 1005000 [sampleDoc]
        emptyWarehouse).warehouse.etl_audit_log.map
      (fun r => (r.start_time, r.end_time))) = [(1000000, 0)] ∧
    (runETL true true (fun _ => false) ⟨2024, 1, 15⟩ 1000000 1005000 [sampleDoc]
        emptyWarehouse).stats.endTime = some 1005000 ∧
    ((0 : Int) - 1000000 ≠ 1005000 - 1000000) ∧
    ((runETL true true (fun _ => false) ⟨2024, 1, 15⟩ 1000000 1005000 [sampleDoc]
        emptyWarehouse).warehouse.etl_audit_log.map
      (fun r => decide (r.records_inserted + r.records_failed ≤ r.records_processed)))
      = [true] := by
  refine ⟨by decide, by decide, by decide, by decide⟩

/-- Claim C8 counterexample: The pipeline script never calls
`process.exit`: when it cannot even start (the document store is
unreachable) it still exits with status 0 — the claim's "non-zero status"
is false — and a run with one per-document failure yields the same
completion value (`undefined`, modelled `none`) as a fully successful
run, so the completion signal does not indicate whether the run had zero
per-document failures. -/
theorem exit_status_counterexample :
    ((runETL false true (fun _ => false) ⟨2024, 1, 15⟩ 0 1 [] emptyWarehouse).exitCode = 0 ∧
     (runETL false true (fun _ => false) ⟨2024, 1, 15⟩ 0 1 [] emptyWarehouse).result
       = some false) ∧
    ((runETL true true (fun _ => true) ⟨2024, 1, 15⟩ 0 1 [sampleDoc] emptyWarehouse).result
       = (runETL true true (fun _ => false) ⟨2024, 1, 15⟩ 0 1 [sampleDoc]
           emptyWarehouse).result ∧
     (runETL true true (fun _ => true) ⟨2024, 1, 15⟩ 0 1 [sampleDoc]
       emptyWarehouse).stats.errors = 1 ∧
     (runETL true true (fun _ => false) ⟨2024, 1, 15⟩ 0 1 [sampleDoc]
       emptyWarehouse).stats.errors = 0 ∧
     (runETL true true (fun _ => true) ⟨2024, 1, 15⟩ 0 1 [sampleDoc]
       emptyWarehouse).exitCode = 0) := by
  refine ⟨⟨rfl, rfl⟩, rfl, by decide, by decide, rfl⟩

/-- Claim C8 amended: The run's completion value distinguishes only a fatal
setup failure (`false`) from a completed run (`undefined`); per-document
failures change neither the completion value nor the exit status; the
process exits 0 on every path (by design, so the watcher keeps running);
and the run always ends the pool and closes the source connection,
releasing the warehouse client exactly when one was acquired — also on a
fatal setup error. -/
theorem run_signal_and_cleanup (mongoOk pgOk : Bool) (dbFail : Nat → Bool)
    (today : CalDate) (t0 t1 : Int) (plans : List PlanDoc) (w : Warehouse) :
    (runETL mongoOk pgOk dbFail today t0 t1 plans w).exitCode = 0 ∧
    ((runETL mongoOk pgOk dbFail today t0 t1 plans w).result = some false ↔
      (mongoOk = false ∨ pgOk = false)) ∧
    (runETL mongoOk pgOk dbFail today t0 t1 plans w).clientReleased
      = (runETL mongoOk pgOk dbFail today t0 t1 plans w).clientAcquired ∧
    (runETL mongoOk pgOk dbFail today t0 t1 plans w).poolEnded = true ∧
    (runETL mongoOk pgOk dbFail today t0 t1 plans w).mongoClosed = true := by
  cases mongoOk <;> cases pgOk <;> simp [runETL]

namespace Watcher

/-- Claim C1: Notifications arriving while a run is in flight never start a
new run: a burst of `N ≥ 1` notifications during one run spawns nothing,
and on the run's completion the pending queue is cleared and exactly one
follow-up is scheduled after the fixed 2000 ms delay — one follow-up, not
`N`.  Moreover, along any event trace from the initial state in which
each completion closes a run actually in flight, the number of runs
started never exceeds the number completed plus one: at most one run is
in progress at any time. -/
theorem coordinator_collapses_burst :
    (∀ (q : List Nat) (ts : List Nat), ts ≠ [] →
      coordExec ⟨true, q⟩ ((ts.map CoordEvent.change) ++ [CoordEvent.closeRun])
        = (⟨false, []⟩, [CoordAction.scheduleFollowUp 2000]) ∧
      countSpawns (coordExec ⟨true, q⟩
        ((ts.map CoordEvent.change) ++ [CoordEvent.closeRun])).2 = 0 ∧
      countFollowUps (coordExec ⟨true, q⟩
        ((ts.map CoordEvent.change) ++ [CoordEvent.closeRun])).2 = 1) ∧
    (∀ (evs : List CoordEvent) (n : Nat), validFrom initState evs = true →
      countSpawns (coordExec initState (evs.take n)).2
        ≤ countCloses (evs.take n) + 1) := by
  constructor
  · intro q ts hts
    have hexec : coordExec ⟨true, q⟩ ((ts.map CoordEvent.change) ++ [CoordEvent.closeRun])
        = (⟨false, []⟩, [CoordAction.scheduleFollowUp 2000]) := by
      rw [coordExec_append, coordExec_changes]
      simp [coordExec, coordStep, onProcessClose]
      exact fun _ => hts
    refine ⟨hexec, ?_, ?_⟩ <;> rw [hexec] <;> rfl
  · intro evs n hv
    have hvt := validFrom_take evs initState n hv
    have hb := spawn_close_balance (evs.take n) initState hvt
    have hinit : (if initState.etlRunning then 1 else 0) = 0 := rfl
    rw [hinit] at hb
    rcases hfin : (coordExec initState (evs.take n)).1.etlRunning
    · rw [hfin] at hb; simp at hb; omega
    · rw [hfin] at hb; simp at hb; omega

/-- Witness for C1: five notifications during one run spawn nothing and
collapse into exactly one 2000 ms follow-up; and on a concrete valid
trace the runs in progress never exceed one. -/
theorem coordinator_collapses_burst_witness :
    coordExec ⟨true, []⟩
        (([1, 2, 3, 4, 5].map CoordEvent.change) ++ [CoordEvent.closeRun])
      = (⟨false, []⟩, [CoordAction.scheduleFollowUp 2000]) ∧
    countSpawns (coordExec initState
        ([CoordEvent.change 7, CoordEvent.closeRun, CoordEvent.timerFire 9].take 3)).2
      ≤ countCloses ([CoordEvent.change 7, CoordEvent.closeRun,
          CoordEvent.timerFire 9].take 3) + 1 := by
  refine ⟨(coordinator_collapses_burst.1 [] [1, 2, 3, 4, 5] (by decide)).1, ?_⟩
  exact coordinator_collapses_burst.2
    [CoordEvent.change 7, CoordEvent.closeRun, CoordEvent.timerFire 9] 3 (by decide)

end Watcher

end HPP
